import Mathlib

/-!
# SessionHelp.cpp: the help / httpd bridge

A shallow embedding of `src/cpp/session/modules/SessionHelp.cpp`.

* `std::string` and `std::vector<char>` are lists of characters (`Str`).
* The file-level statics `s_localIP` / `s_localPort` are the record `DaemonBinding`,
  passed explicitly.
* An R value (`SEXP`) is a small inductive type carrying what the bridge inspects:
  the type tag, the length, the elements and the `names` attribute.
* `http::Response` is defined outside this file.  A response is therefore the ordered log
  of the member calls made on `pResponse`; the one read access the bridge makes
  (`pResponse->contentType()`) is a capability of the `Host`.
* Everything else the bridge consumes from outside this file (R coercions, the file
  system, `http::URL::uncomplete`, the outcome of `setCacheableBody`, evaluation of the
  handler call) is a field of `Host`; theorems quantify over every `Host`.
-/

namespace SessionHelp

/-- Byte strings (`std::string`, `std::vector<char>`). -/
abbrev Str := List Char

/-! ## String primitives -/

/-- Model of `std::string::find(needle)`: the position of the first occurrence of `needle`,
or `none` for `std::string::npos`. -/
def find : Str → Str → Option Nat
  | [], needle => if needle = [] then some 0 else none
  | c :: cs, needle =>
    if needle.isPrefixOf (c :: cs) then some 0
    else (find cs needle).map (fun n => n + 1)

/-- Model of `std::string::substr(pos)` for `pos` not beyond the end of the string. -/
def substr (s : Str) (pos : Nat) : Str := s.drop pos

/-- Scanning loop of `boost::algorithm::replace_all_copy`: `skip` counts the characters of
the current match that are still to be consumed; with `skip = 0` the pattern is tried at
the current position, a match emits `format` and consumes the pattern, a mismatch copies one
character. -/
def replaceAllAux (search format : Str) : Nat → Str → Str
  | _, [] => []
  | skip + 1, _ :: cs => replaceAllAux search format skip cs
  | 0, c :: cs =>
    if search.isPrefixOf (c :: cs) then
      format ++ replaceAllAux search format (search.length - 1) cs
    else c :: replaceAllAux search format 0 cs

/-- Model of `boost::algorithm::replace_all_copy(out, input, search, format)`: every match of
`search`, found left to right and not overlapping, is replaced by `format`.  An empty
`search` matches nothing. -/
def replace_all_copy (input search format : Str) : Str :=
  if search = [] then input else replaceAllAux search format 0 input

/-! ## URL locality matcher -/

/-- The statics `s_localIP` and `s_localPort`. -/
structure DaemonBinding where
  s_localIP : Str
  s_localPort : Str
  deriving DecidableEq, Repr

/-- The function `localURL(address)`. -/
def localURL (b : DaemonBinding) (address : Str) : Str :=
  "http://".toList ++ address ++ ":".toList ++ b.s_localPort ++ "/".toList

/-- The function `isLocalURL(url, scope, pLocalURLPath)`: `some path` when the function returns `true`
having stored `path` in `*pLocalURLPath`, `none` when it returns `false`. -/
def isLocalURL (b : DaemonBinding) (url scope : Str) : Option Str :=
  -- first look for local ip prefix
  let urlPrefix := localURL b b.s_localIP
  match find url (urlPrefix ++ scope) with
  | some _ => some (substr url urlPrefix.length)
  | none =>
    -- next look for localhost
    let urlPrefix := localURL b "localhost".toList
    match find url (urlPrefix ++ scope) with
    | some _ => some (substr url urlPrefix.length)
    | none => none

/-! ## R values -/

/-- The R type tags the bridge distinguishes. -/
inductive SEXPTYPE where
  | NILSXP | LGLSXP | INTSXP | STRSXP | VECSXP | RAWSXP | CLOSXP | ENVSXP
  | OTHER (tag : Nat)
  deriving DecidableEq, Repr

/-- R values as seen by the bridge.  `str` and `vec` carry their `names` attribute
(`none` when the attribute is absent); `raw` carries its `content-type` attribute. -/
inductive SEXP where
  | null
  | lgl (xs : List Bool)
  | int (xs : List Int)
  | str (xs : List Str) (names : Option (List Str))
  | vec (xs : List SEXP) (names : Option (List Str))
  | raw (bytes : Str) (contentType : Option Str)
  | closure (id : Nat)
  | env (id : Nat)
  | other (tag : Nat) (length : Nat)

/-- The macro `TYPEOF(x)`. -/
def TYPEOF : SEXP → SEXPTYPE
  | .null => .NILSXP
  | .lgl _ => .LGLSXP
  | .int _ => .INTSXP
  | .str _ _ => .STRSXP
  | .vec _ _ => .VECSXP
  | .raw _ _ => .RAWSXP
  | .closure _ => .CLOSXP
  | .env _ => .ENVSXP
  | .other tag _ => .OTHER tag

/-- The macro `LENGTH(x)`. -/
def LENGTH : SEXP → Nat
  | .null => 0
  | .lgl xs => xs.length
  | .int xs => xs.length
  | .str xs _ => xs.length
  | .vec xs _ => xs.length
  | .raw bytes _ => bytes.length
  | .closure _ => 1
  | .env _ => 1
  | .other _ n => n

/-- The macro `VECTOR_ELT(x, i)` on a generic vector, `none` outside its bounds or on another type. -/
def VECTOR_ELT : SEXP → Nat → Option SEXP
  | .vec xs _, i => xs.get? i
  | _, _ => none

/-- The call `r::sexp::getNames(x)`: the `names` attribute as a list, `none` when it is not a
string vector. -/
def getNames : SEXP → Option (List Str)
  | .str _ names => names
  | .vec _ names => names
  | _ => none

/-! ## Requests, responses and the host -/

/-- The parts of `http::Request` the bridge reads. -/
structure Request where
  uri : Str
  acceptEncodings : List Str
  body : Str
  contentType : Str
  queryParams : List (Str × Str)
  formFields : List (Str × Str)

/-- The call `request.acceptsEncoding(encoding)`. -/
def Request.acceptsEncoding (request : Request) (encoding : Str) : Bool :=
  decide (encoding ∈ request.acceptEncodings)

/-- A `core::Error`, identified by the message of its code. -/
structure Error where
  message : Str
  deriving DecidableEq, Repr

/-- The output filters handed to the response in this file. -/
inductive Filter where
  | NullOutputFilter
  | HelpContentsFilter (requestUri : Str)
  deriving DecidableEq, Repr

/-- One member call on `http::Response`.  `setCacheableBody contents none` is the overload
without a filter; `setErrorFromError` is `setError(const Error&)`. -/
inductive ResponseCall where
  | setStatusCode (code : Int)
  | setContentType (contentType : Str)
  | setHeaderLine (line : Str)
  | setContentEncoding (encoding : Str)
  | setCacheWithRevalidationHeaders
  | setCacheableBody (content : Str) (filter : Option Filter)
  | setBodyUnencoded (body : Str)
  | setError (code : Int) (message : Str)
  | setErrorFromError (error : Error)
  | setFile (filePath : Str) (filter : Filter)
  deriving DecidableEq, Repr

/-- The state of `*pResponse`: the calls made on it, oldest first. -/
abbrev Response := List ResponseCall

/-- What the bridge consumes from outside `SessionHelp.cpp`. -/
structure Host where
  /-- The call `r::sexp::asString` on a value that is not a single `CHARSXP`. -/
  asString : SEXP → Str
  /-- The call `r::sexp::asInteger`. -/
  asInteger : SEXP → Int
  /-- The value of `CHAR(STRING_ELT(x, i))` when `x` is a generic vector: the element's storage read
  as characters. -/
  rawChar : SEXP → Str
  /-- The call `readStringFromFile(FilePath(fileName), &contents)`. -/
  readStringFromFile : Str → Except Error Str
  /-- The `Error` returned by `pResponse->setCacheableBody(content, request, filter)`,
  `none` for success. -/
  setCacheableBodyError : Response → Str → Request → Option Filter → Option Error
  /-- The call `pResponse->contentType()`. -/
  contentType : Response → Str
  /-- The call `http::URL::uncomplete(baseUri, targetUri)`. -/
  uncomplete : Str → Str → Str
  /-- The call `http::util::urlDecode(str, fromQueryString)`. -/
  urlDecode : Str → Bool → Str
  /-- The call `http::util::urlDecode(str)`, second argument defaulted. -/
  urlDecodeDefault : Str → Str
  /-- The path `options().rHelpCssFilePath()`. -/
  rHelpCssFilePath : Str
  /-- The call `FilePath::exists()`. -/
  fileExists : Str → Bool
  /-- The result of `Rf_eval` of `try(handler(args...), silent=TRUE)` in the `tools` namespace under
  `r::exec::executeSafely`. -/
  evalTry : SEXP → List SEXP → Except Error SEXP
  /-- The outcome of `Rf_eval(Rf_install(".httpd.handlers.env"), R_FindNamespace("tools"))`:
  the value, or the R error raised when the symbol is unbound. -/
  httpdHandlersEnv : Except Error SEXP
  /-- The outcome of `Rf_install(name)` for a name that is not empty: the symbol,
  identified by its name, or the R error raised for a name beyond R's length limit. -/
  installName : Str → Except Error Str
  /-- The call `Rf_findVarInFrame3(env, symbol, TRUE)`, `none` for `R_UnboundValue`. -/
  findVarInFrame3 : SEXP → Str → Option SEXP
  /-- The outcome of `r::sexp::findFunction(name)`: the function, or the R error raised
  when there is none of that name. -/
  findFunction : Str → Except Error SEXP

/-- The constant `kHelpLocation`. -/
def kHelpLocation : Str := "/help".toList
/-- The constant `kCustomLocation`. -/
def kCustomLocation : Str := "/custom".toList
/-- The constant `kTextHtml` of `handleHttpdResult`. -/
def kTextHtml : Str := "text/html".toList

/-- The constant `http::kGzipEncoding`. -/
def kGzipEncoding : Str := "gzip".toList

/-- The constant `http::status::Ok`. -/
def status_Ok : Int := 200

/-- The constant `http::status::InternalServerError`. -/
def status_InternalServerError : Int := 500


/-! ## HTML rewrite filter -/

/-- The script appended by `HelpContentsFilter::do_filter`. -/
def helpNavigatedJs : Str :=
  ("<script type=\"text/javascript\">\n" ++
   "if (window.parent.helpNavigated)\n" ++
   "   window.parent.helpNavigated(document, window);" ++
   "</script>").toList

/-- The search text of the first pass of `do_filter`. -/
def hrefSearch : Str := "href=\"/".toList

/-- The replacement text of the first pass of `do_filter`. -/
def hrefFormat (baseUrl : Str) : Str := "href=\"".toList ++ baseUrl ++ "/".toList

/-- The search text of the second pass of `do_filter`. -/
def srcSearch : Str := "src=\"/".toList

/-- The replacement text of the second pass of `do_filter`. -/
def srcFormat (baseUrl : Str) : Str := "src=\"".toList ++ baseUrl ++ "/".toList

/-- The method `HelpContentsFilter::do_filter(src, dest)` of a filter built for a request
with URI `requestUri_`; the result is the final `dest`. -/
def do_filter (E : Host) (requestUri_ : Str) (src : Str) : Str :=
  let baseUrl := E.uncomplete requestUri_ kHelpLocation
  -- fixup hard-coded hrefs
  let tempDest := replace_all_copy src hrefSearch (hrefFormat baseUrl)
  -- fixup hard-coded src=
  let dest := replace_all_copy tempDest srcSearch (srcFormat baseUrl)
  -- append javascript callbacks
  dest ++ helpNavigatedJs

/-! ## Result translator -/

/-- The template `setDynamicContentResponse(content, request, filter, pResponse)`. -/
def setDynamicContentResponse (E : Host) (content : Str) (request : Request)
    (filter : Filter) (pResponse : Response) : Response :=
  -- always attempt gzip
  let r1 :=
    if request.acceptsEncoding kGzipEncoding then
      pResponse ++ [ResponseCall.setContentEncoding kGzipEncoding]
    else pResponse
  -- force cache revalidation since this is dynamic content
  let r2 := r1 ++ [ResponseCall.setCacheWithRevalidationHeaders]
  -- set as cacheable content (uses eTag/If-None-Match)
  let r3 := r2 ++ [ResponseCall.setCacheableBody content (some filter)]
  match E.setCacheableBodyError r2 content request (some filter) with
  | some error => r3 ++ [ResponseCall.setError status_InternalServerError error.message]
  | none => r3

/-- The overload `setDynamicContentResponse(content, request, pResponse)`. -/
def setDynamicContentResponseNull (E : Host) (content : Str) (request : Request)
    (pResponse : Response) : Response :=
  setDynamicContentResponse E content request Filter.NullOutputFilter pResponse

/-- Block "if present, second element is content type" of `handleHttpdResult`. -/
def resultContentType (httpdSEXP : SEXP) : Str :=
  if LENGTH httpdSEXP > 1 then
    match VECTOR_ELT httpdSEXP 1 with
    | some (SEXP.str (s :: _) _) => s
    | _ => kTextHtml
  else kTextHtml

/-- Block "if present, third element is headers vector" of `handleHttpdResult`. -/
def resultHeaders (httpdSEXP : SEXP) : List Str :=
  if LENGTH httpdSEXP > 2 then
    match VECTOR_ELT httpdSEXP 2 with
    | some (SEXP.str headers _) => headers
    | _ => []
  else []

/-- Block "if present, fourth element is HTTP code" of `handleHttpdResult`. -/
def resultCode (E : Host) (httpdSEXP : SEXP) : Int :=
  if LENGTH httpdSEXP > 3 then
    match VECTOR_ELT httpdSEXP 3 with
    | some codeSEXP => E.asInteger codeSEXP
    | none => 200
  else 200

/-- Block "setup response" and "set headers" of `handleHttpdResult`: the calls made before
the payload is looked at. -/
def setupCalls (code : Int) (contentType : Str) (headers : List Str) : Response :=
  [ResponseCall.setStatusCode code, ResponseCall.setContentType contentType] ++
    headers.map ResponseCall.setHeaderLine

/-- The content string of a payload that passed the "payload = string" test: the first
string of a string vector, `asString` of the first element of a generic vector. -/
def payloadContent (E : Host) : SEXP → Str
  | SEXP.str (s :: _) _ => s
  | SEXP.vec (x :: _) _ => E.asString x
  | _ => []

/-- The value of `CHAR(STRING_ELT(payloadSEXP, 1))` when `LENGTH(payloadSEXP) > 1`. -/
def payloadSecond (E : Host) : SEXP → Str
  | SEXP.str (_ :: s :: _) _ => s
  | SEXP.vec (_ :: x :: _) _ => E.rawChar x
  | _ => []

/-- Block "check for special file returns" of `handleHttpdResult`: the final value of
`fileName`. -/
def specialFileName (E : Host) (namesSEXP : Option (List Str)) (payloadSEXP : SEXP)
    (content : Str) : Str :=
  match namesSEXP with
  | some (name :: _) =>
    if name = "file".toList then content
    else if LENGTH payloadSEXP > 1 ∧ content = "*FILE*".toList then payloadSecond E payloadSEXP
    else []
  | _ =>
    if LENGTH payloadSEXP > 1 ∧ content = "*FILE*".toList then payloadSecond E payloadSEXP
    else []

/-- The template `handleHttpdResult(httpdSEXP, request, htmlFilter, pResponse)`.  The
caller passes a generic vector of positive length; `none` is returned for any other
argument, for which `VECTOR_ELT(httpdSEXP, 0)` has no meaning. -/
def handleHttpdResult (E : Host) (httpdSEXP : SEXP) (request : Request)
    (htmlFilter : Filter) (pResponse : Response) : Option Response :=
  match VECTOR_ELT httpdSEXP 0 with
  | none => none
  | some payloadSEXP =>
    -- defaults, second, third and fourth element
    let code := resultCode E httpdSEXP
    let contentType := resultContentType httpdSEXP
    let headers := resultHeaders httpdSEXP
    -- setup response, set headers
    let r := pResponse ++ setupCalls code contentType headers
    -- payload = string
    if (TYPEOF payloadSEXP = SEXPTYPE.STRSXP ∨ TYPEOF payloadSEXP = SEXPTYPE.VECSXP) ∧
        LENGTH payloadSEXP > 0 then
      -- get the names and the content string
      let namesSEXP := getNames httpdSEXP
      let content := payloadContent E payloadSEXP
      -- check for special file returns
      let fileName := specialFileName E namesSEXP payloadSEXP content
      -- set the body
      if fileName ≠ [] then
        -- cache with revalidation
        let r := r ++ [ResponseCall.setCacheWithRevalidationHeaders]
        -- read file contents
        match E.readStringFromFile fileName with
        | Except.error error => some (r ++ [ResponseCall.setErrorFromError error])
        | Except.ok contents =>
          -- set body (apply filter to html)
          if E.contentType r = kTextHtml then
            some (r ++ [ResponseCall.setCacheableBody contents (some htmlFilter)])
          else
            some (r ++ [ResponseCall.setCacheableBody contents none])
      else if code = status_Ok then
        -- set body (apply filter to html)
        if E.contentType r = kTextHtml then
          some (setDynamicContentResponse E content request htmlFilter r)
        else
          some (setDynamicContentResponseNull E content request r)
      else
        -- could be a redirect or something else, don't interfere
        some (r ++ [ResponseCall.setBodyUnencoded content])
    -- payload = raw buffer
    else if TYPEOF payloadSEXP = SEXPTYPE.RAWSXP then
      match payloadSEXP with
      | SEXP.raw bytes _ => some (setDynamicContentResponseNull E bytes request r)
      | _ => none
    -- payload = unexpected type
    else
      some (r ++ [ResponseCall.setError status_InternalServerError
        "Invalid response from R".toList])


/-! ## Request translator and handler invoker -/

/-- The type `HandlerSource`. -/
abbrev HandlerSource := Str → SEXP

/-- The call `Rf_mkString(s.c_str())`, for a string without an embedded NUL character. -/
def Rf_mkString (s : Str) : SEXP := SEXP.str [s] none

/-- Modelled from the spec: `r::sexp::create(fields, pProtect)`, which lives outside this
file, builds a mapping from field name to field value, preserving the original order. -/
def createFromFields (fields : List (Str × Str)) : SEXP :=
  SEXP.str (fields.map Prod.snd) (some (fields.map Prod.fst))

/-- The function `parseQuery(fields, pProtect)`. -/
def parseQuery (fields : List (Str × Str)) : SEXP :=
  if fields = [] then SEXP.null else createFromFields fields

/-- The function `parseRequestBody(request, pProtect)`. -/
def parseRequestBody (request : Request) : SEXP :=
  if request.body = [] then SEXP.null
  else if request.formFields ≠ [] then parseQuery request.formFields
  else
    -- body bytes, content type
    SEXP.raw request.body (if request.contentType ≠ [] then some request.contentType else none)

/-- The function `callHandler(path, request, handlerSource, pProtect)` run under
`r::exec::executeSafely`. -/
def callHandler (E : Host) (path : Str) (request : Request)
    (handlerSource : HandlerSource) : Except Error SEXP :=
  -- uri decode the path (the decoded copy is not used afterwards)
  let _decodedPath := E.urlDecode path false
  let queryStringSEXP := parseQuery request.queryParams
  let requestBodySEXP := parseRequestBody request
  E.evalTry (handlerSource path) [Rf_mkString path, queryStringSEXP, requestBodySEXP]

/-- Block "get the raw uri & strip its location prefix", "strip query string" and "url decode"
of `handleHttpdRequest`: the value of `path`. -/
def requestPath (E : Host) (location : Str) (request : Request) : Str :=
  let uri := request.uri
  let uri :=
    if location ≠ [] ∧ location.isPrefixOf uri then substr uri location.length else uri
  let uri :=
    match find uri "?".toList with
    | some pos => uri.take pos
    | none => uri
  E.urlDecodeDefault uri

/-- The template `handleHttpdRequest(location, handlerSource, request, filter, pResponse)`. -/
def handleHttpdRequest (E : Host) (location : Str) (handlerSource : HandlerSource)
    (request : Request) (filter : Filter) (pResponse : Response) : Option Response :=
  let path := requestPath E location request
  if path = "/library/R.css".toList ∧ E.fileExists E.rHelpCssFilePath then
    some (pResponse ++ [ResponseCall.setFile E.rHelpCssFilePath filter])
  else
    -- evalute the handler
    match callHandler E path request handlerSource with
    -- error calling the function
    | Except.error error =>
      some (pResponse ++ [ResponseCall.setError status_InternalServerError error.message])
    | Except.ok httpdSEXP =>
      -- error returned explicitly by httpd
      if TYPEOF httpdSEXP = SEXPTYPE.STRSXP ∧ LENGTH httpdSEXP > 0 then
        some (pResponse ++
          [ResponseCall.setError status_InternalServerError (E.asString httpdSEXP)])
      -- content returned from httpd
      else if TYPEOF httpdSEXP = SEXPTYPE.VECSXP ∧ LENGTH httpdSEXP > 0 then
        handleHttpdResult E httpdSEXP request filter pResponse
      -- unexpected SEXP type returned from httpd
      else
        some (pResponse ++ [ResponseCall.setError status_InternalServerError
          "Invalid response from R".toList])

/-! ## A concrete host for evaluating the model -/

/-- The content type a response log reads back when nothing but `setContentType` writes it:
the argument of the last such call. -/
def lastContentType : Response → Str
  | [] => []
  | call :: rest =>
    match lastContentType rest, call with
    | [], ResponseCall.setContentType ct => ct
    | later, _ => later

/-- A host in which the handler call evaluates to `result`, the file `/tmp/x.html` holds
one link, no other file can be read, and `setCacheableBody` succeeds; the custom-handler
registry is an environment that binds `foo` to a closure and `version` to an integer. -/
def sampleHost (result : SEXP) : Host where
  asString := fun x => match x with
    | SEXP.str (s :: _) _ => s
    | _ => "NA".toList
  asInteger := fun x => match x with
    | SEXP.int (n :: _) => n
    | _ => 0
  rawChar := fun _ => []
  readStringFromFile := fun fileName =>
    if fileName = "/tmp/x.html".toList then Except.ok "<a href=\"/x\">".toList
    else Except.error ⟨"No such file or directory".toList⟩
  setCacheableBodyError := fun _ _ _ _ => none
  contentType := lastContentType
  uncomplete := fun _ _ => "/proxy".toList
  urlDecode := fun s _ => s
  urlDecodeDefault := fun s => s
  rHelpCssFilePath := "/usr/share/R/R.css".toList
  fileExists := fun _ => false
  evalTry := fun _ _ => Except.ok result
  httpdHandlersEnv := Except.ok (SEXP.env 1)
  installName := fun name => Except.ok name
  findVarInFrame3 := fun env name => match env with
    | SEXP.env 1 =>
      if name = "foo".toList then some (SEXP.closure 7)
      else if name = "version".toList then some (SEXP.int [1])
      else none
    | _ => none
  findFunction := fun name =>
    if name = ".rs.handlerLookupError".toList then Except.ok (SEXP.closure 0)
    else Except.error ⟨"could not find function".toList⟩

/-- A request for `/help/doc/index.html` that accepts gzip. -/
def sampleRequest : Request where
  uri := "/help/doc/index.html".toList
  acceptEncodings := ["gzip".toList]
  body := []
  contentType := []
  queryParams := []
  formFields := []

/-- All calls of the setup block of `handleHttpdResult` for the result `httpdSEXP`. -/
def resultSetup (E : Host) (httpdSEXP : SEXP) : Response :=
  setupCalls (resultCode E httpdSEXP) (resultContentType httpdSEXP) (resultHeaders httpdSEXP)

/-- A call made by the setup block: it sets the status, the content type or one header
line. -/
def ResponseCall.isSetup : ResponseCall → Bool
  | ResponseCall.setStatusCode _ => true
  | ResponseCall.setContentType _ => true
  | ResponseCall.setHeaderLine _ => true
  | _ => false

/-- The calls `setDynamicContentResponse` adds to a response `r`. -/
def dynamicContentCalls (E : Host) (content : Str) (request : Request) (filter : Filter)
    (r : Response) : Response :=
  let gzip :=
    if request.acceptsEncoding kGzipEncoding then
      [ResponseCall.setContentEncoding kGzipEncoding]
    else []
  gzip ++
    [ResponseCall.setCacheWithRevalidationHeaders,
      ResponseCall.setCacheableBody content (some filter)] ++
    (match E.setCacheableBodyError (r ++ gzip ++ [ResponseCall.setCacheWithRevalidationHeaders])
        content request (some filter) with
      | some error => [ResponseCall.setError status_InternalServerError error.message]
      | none => [])

/-- The binding of the spec's examples: address `127.0.0.1`, port `8787`. -/
def sampleBinding : DaemonBinding where
  s_localIP := "127.0.0.1".toList
  s_localPort := "8787".toList

/-- The sample host with a relative base URL: `uncomplete` answers `..`. -/
def relativeHost : Host :=
  { sampleHost SEXP.null with uncomplete := fun _ _ => "..".toList }

/-! ## Specification of the link rewriting -/

/-- The relation "`output` is `input` with every occurrence of `search` replaced by
`format`", occurrences taken from left to right: either `search` does not occur in
`input`, which is then unchanged; or `input` is `a ++ search ++ b` where this occurrence
is the first one (no occurrence begins inside `a`), and `output` is `a ++ format` followed
by the replacement of every occurrence in `b`. -/
inductive ReplacedEvery (search format : Str) : Str → Str → Prop where
  | done (input : Str) (h : ¬ search <:+: input) : ReplacedEvery search format input input
  | step (a b b' : Str) (h : ¬ search <:+: a ++ search.dropLast)
      (hb : ReplacedEvery search format b b') :
      ReplacedEvery search format (a ++ search ++ b) (a ++ format ++ b')

/-! ## Browse-URL hook -/

/-- The client events enqueued by `handleLocalHttpUrl`: the event made by
`browseUrlEvent(url)` and the event `ClientEvent(client_events::kShowHelp, path)`. -/
inductive ClientEvent where
  | browseUrl (url : Str)
  | showHelp (path : Str)
  deriving DecidableEq, Repr

/-- The function `handleLocalHttpUrl(url)`: the returned flag and the queue of client
events after the call, `enqueClientEvent` appending to `queue`. -/
def handleLocalHttpUrl (b : DaemonBinding) (url : Str) (queue : List ClientEvent) :
    Bool × List ClientEvent :=
  -- return false if the help url prefix hasn't been set yet
  if b.s_localPort = [] then (false, queue)
  else
    -- check for custom
    match isLocalURL b url kCustomLocation with
    | some customPath =>
      let customURL := "/".toList ++ customPath
      (true, queue ++ [ClientEvent.browseUrl customURL])
    | none =>
      -- otherwise look for help (which would be all other localhost urls)
      match isLocalURL b url [] with
      | some helpPath => (true, queue ++ [ClientEvent.showHelp helpPath])
      | none =>
        -- wasn't a url of interest
        (false, queue)

/-! ## Handler resolver -/

/-- The character class `[A-Za-z0-9_\-]` of the handler-name pattern. -/
def isHandlerNameChar (c : Char) : Bool :=
  ('A' ≤ c ∧ c ≤ 'Z') ∨ ('a' ≤ c ∧ c ≤ 'z') ∨ ('0' ≤ c ∧ c ≤ '9') ∨ c = '_' ∨ c = '-'

/-- The outcome of `regex_match(uri, match, customRegx)` for the pattern
`.*/custom/([A-Za-z0-9_\-]*).*`: `none` when the URI does not match, otherwise `match[1]`.
The leading `.*` is greedy, so the `/custom/` taken is the last one in the URI (a later
occurrence wins over the one at the current position); the group is the longest run of
name characters after it. -/
def customHandlerName : Str → Option Str
  | [] => none
  | c :: cs =>
    match customHandlerName cs with
    | some handler => some handler
    | none =>
      if "/custom/".toList.isPrefixOf (c :: cs) then
        some (((c :: cs).drop "/custom/".toList.length).takeWhile isHandlerNameChar)
      else none

/-- The call `Rf_install(name)`: R raises the error "attempt to use zero-length variable
name" for the empty name; the host decides every other name. -/
def Rf_install (E : Host) (name : Str) : Except Error Str :=
  if name = [] then Except.error ⟨"attempt to use zero-length variable name".toList⟩
  else E.installName name

/-- The function `lookupCustomHandler(uri)`: the returned handler, or the R error that
leaves the function before it returns, and the value of the static `s_customHandlersEnv`
after the call (`none` for `NULL`). -/
def lookupCustomHandler (E : Host) (s_customHandlersEnv : Option SEXP) (uri : Str) :
    Except Error SEXP × Option SEXP :=
  -- pick name of handler out of uri
  match customHandlerName uri with
  | some handler =>
    -- load .httpd.handlers.env
    let loaded : Except Error SEXP :=
      match s_customHandlersEnv with
      | some env => Except.ok env
      | none => E.httpdHandlersEnv
    match loaded with
    | Except.error error => (Except.error error, s_customHandlersEnv)
    | Except.ok env =>
      -- we only proceed if .httpd.handlers.env really exists
      if TYPEOF env = SEXPTYPE.ENVSXP then
        match Rf_install E handler with
        | Except.error error => (Except.error error, some env)
        | Except.ok symbol =>
          match E.findVarInFrame3 env symbol with
          | some cl =>
            -- need a closure
            if TYPEOF cl = SEXPTYPE.CLOSXP then (Except.ok cl, some env)
            else (E.findFunction ".rs.handlerLookupError".toList, some env)
          | none => (E.findFunction ".rs.handlerLookupError".toList, some env)
      else (E.findFunction ".rs.handlerLookupError".toList, some env)
  -- if we didn't find a handler then return handler lookup error
  | none => (E.findFunction ".rs.handlerLookupError".toList, s_customHandlersEnv)

/-! ## A host that decodes as the specification describes -/

/-- The value of a hexadecimal digit. -/
def hexDigit (c : Char) : Option Nat :=
  if '0' ≤ c ∧ c ≤ '9' then some (c.toNat - '0'.toNat)
  else if 'a' ≤ c ∧ c ≤ 'f' then some (c.toNat - 'a'.toNat + 10)
  else if 'A' ≤ c ∧ c ≤ 'F' then some (c.toNat - 'A'.toNat + 10)
  else none

/-- Scanning loop of `urlDecodeSpec`: `skip` counts the hexadecimal digits of the current
escape that are still to be consumed. -/
def urlDecodeAux (fromQueryString : Bool) : Nat → Str → Str
  | _, [] => []
  | skip + 1, _ :: rest => urlDecodeAux fromQueryString skip rest
  | 0, c :: rest =>
    match c, rest with
    | '%', h :: l :: _ =>
      match hexDigit h, hexDigit l with
      | some a, some b => Char.ofNat (16 * a + b) :: urlDecodeAux fromQueryString 2 rest
      | _, _ => '%' :: urlDecodeAux fromQueryString 0 rest
    | _, _ =>
      (if fromQueryString ∧ c = '+' then ' ' else c) :: urlDecodeAux fromQueryString 0 rest

/-- Modelled from the spec: `http::util::urlDecode(in, fromQueryString)`, which is defined
outside this file, percent-decodes its input and translates `+` to a space when
`fromQueryString` is set. -/
def urlDecodeSpec (fromQueryString : Bool) (s : Str) : Str :=
  urlDecodeAux fromQueryString 0 s

/-- Modelled from the spec: the host whose `urlDecode` is `urlDecodeSpec` and whose default
for `fromQueryString` is the translating one ("default percent-decoding (with
translation)"); its handler call returns the first argument it is given, the path. -/
def echoHost : Host :=
  { sampleHost SEXP.null with
    urlDecode := fun s fromQueryString => urlDecodeSpec fromQueryString s
    urlDecodeDefault := fun s => urlDecodeSpec true s
    evalTry := fun _ args => Except.ok (args.headD SEXP.null) }

/-! # Theorems -/

/-! ## Result translator -/

theorem isSetup_of_mem_setupCalls (code : Int) (ct : Str) (headers : List Str)
    (c : ResponseCall) (h : c ∈ setupCalls code ct headers) : c.isSetup = true := by
  simp only [setupCalls, List.mem_append, List.mem_cons, List.mem_singleton, List.mem_map,
    List.not_mem_nil, or_false] at h
  rcases h with (h | h) | ⟨l, _, h⟩ <;> subst h <;> rfl

theorem VECTOR_ELT_zero (payloadSEXP : SEXP) (rest : List SEXP) (names : Option (List Str)) :
    VECTOR_ELT (SEXP.vec (payloadSEXP :: rest) names) 0 = some payloadSEXP := rfl

theorem setDynamicContentResponse_eq (E : Host) (content : Str) (request : Request)
    (filter : Filter) (r : Response) :
    setDynamicContentResponse E content request filter r =
      r ++ dynamicContentCalls E content request filter r := by
  unfold setDynamicContentResponse dynamicContentCalls
  by_cases hg : request.acceptsEncoding kGzipEncoding = true
  · simp only [hg, if_true]
    cases E.setCacheableBodyError (r ++ [ResponseCall.setContentEncoding kGzipEncoding] ++
      [ResponseCall.setCacheWithRevalidationHeaders]) content request (some filter) <;> simp
  · simp only [hg]
    cases h : E.setCacheableBodyError (r ++ [ResponseCall.setCacheWithRevalidationHeaders])
      content request (some filter) <;> simp [h]

theorem not_isSetup_of_mem_dynamicContentCalls (E : Host) (content : Str) (request : Request)
    (filter : Filter) (r : Response) (c : ResponseCall)
    (h : c ∈ dynamicContentCalls E content request filter r) : c.isSetup = false := by
  unfold dynamicContentCalls at h
  simp only [List.mem_append, List.mem_cons, List.mem_singleton, List.not_mem_nil,
    or_false] at h
  rcases h with (h | h | h) | h
  · split at h
    · simp at h; subst h; rfl
    · simp at h
  · subst h; rfl
  · subst h; rfl
  · split at h
    · simp at h; subst h; rfl
    · simp at h

/-- The result translator always produces a response for a generic vector of positive
length: the setup calls followed by calls that are not setup calls. -/
theorem handleHttpdResult_shape (E : Host) (payloadSEXP : SEXP) (rest : List SEXP)
    (names : Option (List Str)) (request : Request) (htmlFilter : Filter)
    (pResponse : Response) :
    ∃ tail : Response,
      handleHttpdResult E (SEXP.vec (payloadSEXP :: rest) names) request htmlFilter pResponse =
        some (pResponse ++ resultSetup E (SEXP.vec (payloadSEXP :: rest) names) ++ tail) ∧
      ∀ c ∈ tail, c.isSetup = false := by
  simp only [handleHttpdResult, VECTOR_ELT_zero, resultSetup, setDynamicContentResponseNull,
    setDynamicContentResponse_eq, List.append_assoc]
  have two : ∀ a b : ResponseCall, a.isSetup = false → b.isSetup = false →
      ∀ c ∈ [a, b], c.isSetup = false := by
    intro a b ha hb c hc
    simp only [List.mem_cons, List.mem_singleton, List.not_mem_nil, or_false] at hc
    rcases hc with rfl | rfl <;> assumption
  have one : ∀ a : ResponseCall, a.isSetup = false → ∀ c ∈ [a], c.isSetup = false := by
    intro a ha c hc
    simp only [List.mem_singleton] at hc
    subst hc
    exact ha
  split
  · split
    · split
      · exact ⟨_, rfl, two _ _ rfl rfl⟩
      · split
        · exact ⟨_, rfl, two _ _ rfl rfl⟩
        · exact ⟨_, rfl, two _ _ rfl rfl⟩
    · split
      · split
        · exact ⟨_, rfl, fun c hc => not_isSetup_of_mem_dynamicContentCalls _ _ _ _ _ c hc⟩
        · exact ⟨_, rfl, fun c hc => not_isSetup_of_mem_dynamicContentCalls _ _ _ _ _ c hc⟩
      · exact ⟨_, rfl, one _ rfl⟩
  · split
    · rename_i hraw
      cases payloadSEXP <;> simp only [TYPEOF, reduceCtorEq] at hraw
      exact ⟨_, rfl, fun c hc => not_isSetup_of_mem_dynamicContentCalls _ _ _ _ _ c hc⟩
    · exact ⟨_, rfl, one _ rfl⟩

theorem resultCode_cons (E : Host) (payloadSEXP : SEXP) (rest : List SEXP)
    (names : Option (List Str)) :
    resultCode E (SEXP.vec (payloadSEXP :: rest) names) =
      match rest with
      | _ :: _ :: codeSEXP :: _ => E.asInteger codeSEXP
      | _ => 200 := by
  rcases rest with _ | ⟨a, _ | ⟨b, _ | ⟨c, rest⟩⟩⟩ <;> simp [resultCode, LENGTH, VECTOR_ELT]

theorem resultContentType_cons (payloadSEXP : SEXP) (rest : List SEXP)
    (names : Option (List Str)) :
    resultContentType (SEXP.vec (payloadSEXP :: rest) names) =
      match rest with
      | SEXP.str (s :: _) _ :: _ => s
      | _ => "text/html".toList := by
  rcases rest with _ | ⟨a, rest⟩
  · simp [resultContentType, LENGTH, kTextHtml]
  · simp only [resultContentType, LENGTH, VECTOR_ELT, List.length_cons, gt_iff_lt,
      lt_add_iff_pos_left, add_pos_iff, zero_lt_one, or_true, if_true, List.get?_cons_succ,
      List.get?_cons_zero, kTextHtml]
    split <;> simp_all

theorem resultHeaders_cons (payloadSEXP : SEXP) (rest : List SEXP)
    (names : Option (List Str)) :
    resultHeaders (SEXP.vec (payloadSEXP :: rest) names) =
      match rest with
      | _ :: SEXP.str headers _ :: _ => headers
      | _ => [] := by
  rcases rest with _ | ⟨a, _ | ⟨b, rest⟩⟩
  · simp [resultHeaders, LENGTH]
  · simp [resultHeaders, LENGTH]
  · simp only [resultHeaders, LENGTH, VECTOR_ELT, List.length_cons, gt_iff_lt,
      List.get?_cons_succ, List.get?_cons_zero]
    have : 2 < rest.length + 1 + 1 + 1 := by omega
    simp only [this, if_true]
    split <;> simp_all

/-- C6. For every structured result (generic vector of length at least 1),
`handleHttpdResult` first sets the status code to element 3 as an integer when present and
to 200 otherwise, then the content type to element 1's first string when element 1 is a
non-empty string vector and to "text/html" otherwise, then applies each string of element 2
(when that is a string vector) as one header line in the order given; no later call of the
function sets a status code, content type or header line. -/
theorem C6_status_contentType_headers (E : Host) (payloadSEXP : SEXP) (rest : List SEXP)
    (names : Option (List Str)) (request : Request) (htmlFilter : Filter)
    (pResponse : Response) :
    ∃ tail : Response,
      handleHttpdResult E (SEXP.vec (payloadSEXP :: rest) names) request htmlFilter pResponse =
        some (pResponse ++
          [ResponseCall.setStatusCode
              (match rest with
                | _ :: _ :: codeSEXP :: _ => E.asInteger codeSEXP
                | _ => 200),
            ResponseCall.setContentType
              (match rest with
                | SEXP.str (s :: _) _ :: _ => s
                | _ => "text/html".toList)] ++
          List.map ResponseCall.setHeaderLine
              (match rest with
                | _ :: SEXP.str headers _ :: _ => headers
                | _ => []) ++
          tail) ∧
      ∀ c ∈ tail, c.isSetup = false := by
  obtain ⟨tail, h, htail⟩ :=
    handleHttpdResult_shape E payloadSEXP rest names request htmlFilter pResponse
  refine ⟨tail, ?_, htail⟩
  rw [h, resultSetup, resultCode_cons, resultContentType_cons, resultHeaders_cons, setupCalls]
  simp only [List.append_assoc]

/-- C1 (as stated, refuted). A structured result with status 302 whose payload is a raw
buffer, on a request that accepts gzip: the bridge sets the gzip content encoding and the
cache-revalidation headers and hands the bytes to `setCacheableBody`; it does not call
`setBodyUnencoded`. -/
theorem C1_counterexample_raw_payload_302 :
    handleHttpdResult (sampleHost SEXP.null)
      (SEXP.vec [SEXP.raw "abc".toList none, SEXP.str ["text/plain".toList] none,
        SEXP.str [] none, SEXP.int [302]] none)
      sampleRequest Filter.NullOutputFilter [] =
    some [ResponseCall.setStatusCode 302, ResponseCall.setContentType "text/plain".toList,
      ResponseCall.setContentEncoding "gzip".toList,
      ResponseCall.setCacheWithRevalidationHeaders,
      ResponseCall.setCacheableBody "abc".toList (some Filter.NullOutputFilter)] := by
  decide

/-- C1 (amended). For every structured result whose payload is a non-empty string vector or
generic vector that is not a file reference and whose status code is not 200,
`handleHttpdResult` makes the setup calls and then exactly one more call,
`setBodyUnencoded` with the content string: it sets no content encoding and no
cache-revalidation headers, whatever encodings the request accepts. -/
theorem C1_string_payload_non200_unencoded (E : Host) (payloadSEXP : SEXP) (rest : List SEXP)
    (names : Option (List Str)) (request : Request) (htmlFilter : Filter)
    (pResponse : Response)
    (hpayload : (TYPEOF payloadSEXP = SEXPTYPE.STRSXP ∨ TYPEOF payloadSEXP = SEXPTYPE.VECSXP) ∧
      LENGTH payloadSEXP > 0)
    (hnofile : specialFileName E names payloadSEXP (payloadContent E payloadSEXP) = [])
    (hcode : resultCode E (SEXP.vec (payloadSEXP :: rest) names) ≠ 200) :
    handleHttpdResult E (SEXP.vec (payloadSEXP :: rest) names) request htmlFilter pResponse =
      some (pResponse ++ resultSetup E (SEXP.vec (payloadSEXP :: rest) names) ++
        [ResponseCall.setBodyUnencoded (payloadContent E payloadSEXP)]) ∧
    ∀ c ∈ resultSetup E (SEXP.vec (payloadSEXP :: rest) names) ++
        [ResponseCall.setBodyUnencoded (payloadContent E payloadSEXP)],
      c ≠ ResponseCall.setCacheWithRevalidationHeaders ∧
      ∀ encoding, c ≠ ResponseCall.setContentEncoding encoding := by
  constructor
  · simp only [handleHttpdResult, VECTOR_ELT_zero, getNames, hpayload, hnofile, status_Ok,
      resultSetup]
    simp [hcode]
  · intro c hc
    rw [List.mem_append] at hc
    rcases hc with hc | hc
    · have := isSetup_of_mem_setupCalls _ _ _ c hc
      constructor
      · rintro rfl; simp [ResponseCall.isSetup] at this
      · rintro e rfl; simp [ResponseCall.isSetup] at this
    · simp only [List.mem_singleton] at hc
      subst hc
      simp

/-- Witness for C1 (amended): a 302 redirect with a string payload. -/
theorem C1_string_payload_non200_unencoded_witness :
    handleHttpdResult (sampleHost SEXP.null)
      (SEXP.vec [SEXP.str ["moved".toList] none, SEXP.str ["text/plain".toList] none,
        SEXP.str ["Location: /x".toList] none, SEXP.int [302]] none)
      sampleRequest Filter.NullOutputFilter [] =
    some ([] ++ resultSetup (sampleHost SEXP.null)
      (SEXP.vec [SEXP.str ["moved".toList] none, SEXP.str ["text/plain".toList] none,
        SEXP.str ["Location: /x".toList] none, SEXP.int [302]] none) ++
      [ResponseCall.setBodyUnencoded
        (payloadContent (sampleHost SEXP.null) (SEXP.str ["moved".toList] none))]) :=
  (C1_string_payload_non200_unencoded (sampleHost SEXP.null) (SEXP.str ["moved".toList] none)
    [SEXP.str ["text/plain".toList] none, SEXP.str ["Location: /x".toList] none,
      SEXP.int [302]] none sampleRequest Filter.NullOutputFilter []
    (by decide) (by decide) (by decide)).1

/-- C2 (as stated, refuted). A handler result that is itself a raw byte buffer is answered
with the 500 "Invalid response from R" error. -/
theorem C2_counterexample_top_level_raw :
    handleHttpdRequest (sampleHost (SEXP.raw "abc".toList none)) kHelpLocation
      (fun _ => SEXP.closure 0) sampleRequest
      (Filter.HelpContentsFilter sampleRequest.uri) [] =
    some [ResponseCall.setError 500 "Invalid response from R".toList] := by
  decide

/-- C2 (amended). When the handler was evaluated and returned a generic vector whose
element 0 is a raw byte buffer, `handleHttpdRequest` makes the setup calls and then runs
the dynamic-content pipeline on exactly the buffer's bytes with the null filter (gzip
content encoding if the request accepts it, cache-revalidation headers, cacheable body),
whatever filter the request handler was given and whatever the content type is; the
response is not the 500 "Invalid response from R" error. -/
theorem C2_raw_payload_dynamic_content (E : Host) (location : Str)
    (handlerSource : HandlerSource) (request : Request) (filter : Filter)
    (pResponse : Response) (bytes : Str) (attr : Option Str) (rest : List SEXP)
    (names : Option (List Str))
    (hcss : ¬ (requestPath E location request = "/library/R.css".toList ∧
      E.fileExists E.rHelpCssFilePath = true))
    (heval : callHandler E (requestPath E location request) request handlerSource =
      Except.ok (SEXP.vec (SEXP.raw bytes attr :: rest) names)) :
    handleHttpdRequest E location handlerSource request filter pResponse =
      some (pResponse ++ resultSetup E (SEXP.vec (SEXP.raw bytes attr :: rest) names) ++
        ((if request.acceptsEncoding kGzipEncoding then
            [ResponseCall.setContentEncoding kGzipEncoding]
          else []) ++
        [ResponseCall.setCacheWithRevalidationHeaders,
          ResponseCall.setCacheableBody bytes (some Filter.NullOutputFilter)] ++
        (match E.setCacheableBodyError
            (pResponse ++ resultSetup E (SEXP.vec (SEXP.raw bytes attr :: rest) names) ++
              (if request.acceptsEncoding kGzipEncoding then
                [ResponseCall.setContentEncoding kGzipEncoding]
              else []) ++
              [ResponseCall.setCacheWithRevalidationHeaders])
            bytes request (some Filter.NullOutputFilter) with
          | some error => [ResponseCall.setError status_InternalServerError error.message]
          | none => []))) ∧
    handleHttpdRequest E location handlerSource request filter pResponse ≠
      some (pResponse ++
        [ResponseCall.setError status_InternalServerError "Invalid response from R".toList]) := by
  have key : handleHttpdRequest E location handlerSource request filter pResponse =
      some (pResponse ++ resultSetup E (SEXP.vec (SEXP.raw bytes attr :: rest) names) ++
        dynamicContentCalls E bytes request Filter.NullOutputFilter
          (pResponse ++ resultSetup E (SEXP.vec (SEXP.raw bytes attr :: rest) names))) := by
    simp only [handleHttpdRequest, hcss, if_false, heval, TYPEOF, LENGTH, handleHttpdResult,
      VECTOR_ELT_zero, setDynamicContentResponseNull, setDynamicContentResponse_eq, resultSetup]
    simp
  constructor
  · rw [key]; rfl
  · rw [key]
    simp [resultSetup, setupCalls]

/-- Witness for C2 (amended): a raw payload with content type `text/html` on a help request. -/
theorem C2_raw_payload_dynamic_content_witness :
    handleHttpdRequest
      (sampleHost (SEXP.vec [SEXP.raw "abc".toList none, SEXP.str ["text/html".toList] none] none))
      kHelpLocation (fun _ => SEXP.closure 0) sampleRequest
      (Filter.HelpContentsFilter sampleRequest.uri) [] ≠
    some ([] ++
      [ResponseCall.setError status_InternalServerError "Invalid response from R".toList]) :=
  (C2_raw_payload_dynamic_content
    (sampleHost (SEXP.vec [SEXP.raw "abc".toList none, SEXP.str ["text/html".toList] none] none))
    kHelpLocation (fun _ => SEXP.closure 0) sampleRequest
    (Filter.HelpContentsFilter sampleRequest.uri) [] "abc".toList none
    [SEXP.str ["text/html".toList] none] none (by decide) rfl).2

/-- C3. When the handler was evaluated without fault and its result is neither a string
vector, a generic vector nor a raw buffer, `handleHttpdRequest` makes exactly one call on
the response, `setError(500, "Invalid response from R")`; the response does not depend on
the result. -/
theorem C3_unexpected_type_invalid_response (E : Host) (location : Str)
    (handlerSource : HandlerSource) (request : Request) (filter : Filter)
    (pResponse : Response) (httpdSEXP : SEXP)
    (hcss : ¬ (requestPath E location request = "/library/R.css".toList ∧
      E.fileExists E.rHelpCssFilePath = true))
    (heval : callHandler E (requestPath E location request) request handlerSource =
      Except.ok httpdSEXP)
    (hstr : TYPEOF httpdSEXP ≠ SEXPTYPE.STRSXP)
    (hvec : TYPEOF httpdSEXP ≠ SEXPTYPE.VECSXP)
    (_hraw : TYPEOF httpdSEXP ≠ SEXPTYPE.RAWSXP) :
    handleHttpdRequest E location handlerSource request filter pResponse =
      some (pResponse ++ [ResponseCall.setError 500 "Invalid response from R".toList]) := by
  simp only [handleHttpdRequest, hcss, if_false, heval, hstr, hvec, false_and,
    status_InternalServerError]

/-- Witness for C3: the handler returns the integer vector `1L`. -/
theorem C3_unexpected_type_invalid_response_witness :
    handleHttpdRequest (sampleHost (SEXP.int [1])) kHelpLocation (fun _ => SEXP.closure 0)
      sampleRequest (Filter.HelpContentsFilter sampleRequest.uri) [] =
    some ([] ++ [ResponseCall.setError 500 "Invalid response from R".toList]) :=
  C3_unexpected_type_invalid_response (sampleHost (SEXP.int [1])) kHelpLocation
    (fun _ => SEXP.closure 0) sampleRequest (Filter.HelpContentsFilter sampleRequest.uri) []
    (SEXP.int [1]) (by decide) rfl (by decide) (by decide) (by decide)

/-- C5. In the file branch of `handleHttpdResult` (the file name computed from the result is
not empty), when reading the file fails with `error` the function makes the setup calls,
sets the cache-revalidation headers and then calls `setError(error)`; it makes no
`setCacheableBody` and no `setBodyUnencoded` call, so no body is set and no filter runs. -/
theorem C5_file_read_failure (E : Host) (payloadSEXP : SEXP) (rest : List SEXP)
    (names : Option (List Str)) (request : Request) (htmlFilter : Filter)
    (pResponse : Response) (error : Error)
    (hpayload : (TYPEOF payloadSEXP = SEXPTYPE.STRSXP ∨ TYPEOF payloadSEXP = SEXPTYPE.VECSXP) ∧
      LENGTH payloadSEXP > 0)
    (hfile : specialFileName E names payloadSEXP (payloadContent E payloadSEXP) ≠ [])
    (hread : E.readStringFromFile
      (specialFileName E names payloadSEXP (payloadContent E payloadSEXP)) =
        Except.error error) :
    handleHttpdResult E (SEXP.vec (payloadSEXP :: rest) names) request htmlFilter pResponse =
      some (pResponse ++ resultSetup E (SEXP.vec (payloadSEXP :: rest) names) ++
        [ResponseCall.setCacheWithRevalidationHeaders, ResponseCall.setErrorFromError error]) ∧
    ∀ c ∈ resultSetup E (SEXP.vec (payloadSEXP :: rest) names) ++
        [ResponseCall.setCacheWithRevalidationHeaders, ResponseCall.setErrorFromError error],
      (∀ content f, c ≠ ResponseCall.setCacheableBody content f) ∧
      ∀ body, c ≠ ResponseCall.setBodyUnencoded body := by
  constructor
  · simp only [handleHttpdResult, VECTOR_ELT_zero, getNames, resultSetup]
    rw [if_pos hpayload, if_pos hfile]
    simp only [hread, List.append_assoc, List.singleton_append]
  · intro c hc
    rw [List.mem_append] at hc
    rcases hc with hc | hc
    · have := isSetup_of_mem_setupCalls _ _ _ c hc
      constructor
      · rintro content f rfl; simp [ResponseCall.isSetup] at this
      · rintro body rfl; simp [ResponseCall.isSetup] at this
    · simp only [List.mem_cons, List.mem_singleton, List.not_mem_nil, or_false] at hc
      rcases hc with rfl | rfl <;> simp

/-- Witness for C5: the first element is named "file" and names a file that cannot be
read. -/
theorem C5_file_read_failure_witness :
    handleHttpdResult (sampleHost SEXP.null)
      (SEXP.vec [SEXP.str ["/nonexistent.html".toList] none] (some ["file".toList]))
      sampleRequest (Filter.HelpContentsFilter sampleRequest.uri) [] =
    some ([] ++ resultSetup (sampleHost SEXP.null)
        (SEXP.vec [SEXP.str ["/nonexistent.html".toList] none] (some ["file".toList])) ++
      [ResponseCall.setCacheWithRevalidationHeaders,
        ResponseCall.setErrorFromError ⟨"No such file or directory".toList⟩]) :=
  (C5_file_read_failure (sampleHost SEXP.null) (SEXP.str ["/nonexistent.html".toList] none) []
    (some ["file".toList]) sampleRequest (Filter.HelpContentsFilter sampleRequest.uri) []
    ⟨"No such file or directory".toList⟩ (by decide) (by decide) rfl).1

theorem specialFileName_named (E : Host) (ns : List Str) (payloadSEXP : SEXP) (content : Str) :
    specialFileName E (some ("file".toList :: ns)) payloadSEXP content = content := by
  simp [specialFileName]

theorem specialFileName_unnamed (E : Host) (names : Option (List Str)) (payloadSEXP : SEXP)
    (content : Str) (hnames : ∀ ns, names ≠ some ("file".toList :: ns)) :
    specialFileName E names payloadSEXP content =
      if LENGTH payloadSEXP > 1 ∧ content = "*FILE*".toList then payloadSecond E payloadSEXP
      else [] := by
  rcases names with _ | ⟨_ | ⟨name, ns⟩⟩
  · rfl
  · rfl
  · have hne : name ≠ "file".toList := fun h => hnames ns (by rw [h])
    simp only [specialFileName, hne, if_false]

/-- C4 (as stated, refuted). The only element of the result is named "file" and holds the
empty string, the second result has the payload `c("*FILE*", "")`: neither is treated as a
file reference, although the file with the empty name cannot be read; both are answered as
dynamic content with the content string as the body. -/
theorem C4_counterexample_empty_file_name :
    (sampleHost SEXP.null).readStringFromFile [] =
      Except.error ⟨"No such file or directory".toList⟩ ∧
    handleHttpdResult (sampleHost SEXP.null)
      (SEXP.vec [SEXP.str [[]] none] (some ["file".toList]))
      sampleRequest Filter.NullOutputFilter [] =
    some [ResponseCall.setStatusCode 200, ResponseCall.setContentType "text/html".toList,
      ResponseCall.setContentEncoding "gzip".toList,
      ResponseCall.setCacheWithRevalidationHeaders,
      ResponseCall.setCacheableBody [] (some Filter.NullOutputFilter)] ∧
    handleHttpdResult (sampleHost SEXP.null)
      (SEXP.vec [SEXP.str ["*FILE*".toList, []] none] none)
      sampleRequest Filter.NullOutputFilter [] =
    some [ResponseCall.setStatusCode 200, ResponseCall.setContentType "text/html".toList,
      ResponseCall.setContentEncoding "gzip".toList,
      ResponseCall.setCacheWithRevalidationHeaders,
      ResponseCall.setCacheableBody "*FILE*".toList (some Filter.NullOutputFilter)] := by
  refine ⟨rfl, ?_, ?_⟩ <;> decide

/-- C4 (amended). For a structured result whose payload is a non-empty string vector or
generic vector: (a) if the first element of the result is named "file" and the content
string is not empty, or (b) if it is not so named, the payload is a string vector whose
first string is "*FILE*" and whose second string is not empty, the result is a file
reference with that content string, respectively that second string, as the path: when the
file is readable, `handleHttpdResult` sets the cache-revalidation headers and passes the
file's bytes to `setCacheableBody`, with the HTML filter if and only if the response's
content type is exactly "text/html"; (c) if the first element is named "file" but the
content string is empty, or it is not so named and the content string is not "*FILE*" or
the payload has one element only, or the second string is empty, the content string itself
is the body: through the dynamic-content pipeline when the status is 200, unencoded
otherwise. -/
theorem C4_file_reference_detection (E : Host) (payloadSEXP : SEXP) (rest : List SEXP)
    (names : Option (List Str)) (request : Request) (htmlFilter : Filter)
    (pResponse : Response)
    (hpayload : (TYPEOF payloadSEXP = SEXPTYPE.STRSXP ∨ TYPEOF payloadSEXP = SEXPTYPE.VECSXP) ∧
      LENGTH payloadSEXP > 0) :
    ((∃ ns, names = some ("file".toList :: ns)) → payloadContent E payloadSEXP ≠ [] →
      ∀ bytes, E.readStringFromFile (payloadContent E payloadSEXP) = Except.ok bytes →
        handleHttpdResult E (SEXP.vec (payloadSEXP :: rest) names) request htmlFilter pResponse =
          some (pResponse ++ resultSetup E (SEXP.vec (payloadSEXP :: rest) names) ++
            [ResponseCall.setCacheWithRevalidationHeaders,
              ResponseCall.setCacheableBody bytes
                (if E.contentType
                    (pResponse ++ resultSetup E (SEXP.vec (payloadSEXP :: rest) names) ++
                      [ResponseCall.setCacheWithRevalidationHeaders]) = "text/html".toList
                  then some htmlFilter else none)])) ∧
    ((∀ ns, names ≠ some ("file".toList :: ns)) →
      ∀ path more pn, payloadSEXP = SEXP.str ("*FILE*".toList :: path :: more) pn → path ≠ [] →
      ∀ bytes, E.readStringFromFile path = Except.ok bytes →
        handleHttpdResult E (SEXP.vec (payloadSEXP :: rest) names) request htmlFilter pResponse =
          some (pResponse ++ resultSetup E (SEXP.vec (payloadSEXP :: rest) names) ++
            [ResponseCall.setCacheWithRevalidationHeaders,
              ResponseCall.setCacheableBody bytes
                (if E.contentType
                    (pResponse ++ resultSetup E (SEXP.vec (payloadSEXP :: rest) names) ++
                      [ResponseCall.setCacheWithRevalidationHeaders]) = "text/html".toList
                  then some htmlFilter else none)])) ∧
    ((((∃ ns, names = some ("file".toList :: ns)) ∧ payloadContent E payloadSEXP = []) ∨
      ((∀ ns, names ≠ some ("file".toList :: ns)) ∧
        ¬ (LENGTH payloadSEXP > 1 ∧ payloadContent E payloadSEXP = "*FILE*".toList)) ∨
      ((∀ ns, names ≠ some ("file".toList :: ns)) ∧
        ∃ more pn, payloadSEXP = SEXP.str ("*FILE*".toList :: [] :: more) pn)) →
      handleHttpdResult E (SEXP.vec (payloadSEXP :: rest) names) request htmlFilter pResponse =
        some (pResponse ++ resultSetup E (SEXP.vec (payloadSEXP :: rest) names) ++
          (if resultCode E (SEXP.vec (payloadSEXP :: rest) names) = 200 then
            dynamicContentCalls E (payloadContent E payloadSEXP) request
              (if E.contentType
                  (pResponse ++ resultSetup E (SEXP.vec (payloadSEXP :: rest) names)) =
                    "text/html".toList
                then htmlFilter else Filter.NullOutputFilter)
              (pResponse ++ resultSetup E (SEXP.vec (payloadSEXP :: rest) names))
          else [ResponseCall.setBodyUnencoded (payloadContent E payloadSEXP)]))) := by
  have unfold_file : ∀ bytes,
      specialFileName E names payloadSEXP (payloadContent E payloadSEXP) ≠ [] →
      E.readStringFromFile (specialFileName E names payloadSEXP (payloadContent E payloadSEXP)) =
        Except.ok bytes →
      handleHttpdResult E (SEXP.vec (payloadSEXP :: rest) names) request htmlFilter pResponse =
          some (pResponse ++ resultSetup E (SEXP.vec (payloadSEXP :: rest) names) ++
            [ResponseCall.setCacheWithRevalidationHeaders,
              ResponseCall.setCacheableBody bytes
                (if E.contentType
                    (pResponse ++ resultSetup E (SEXP.vec (payloadSEXP :: rest) names) ++
                      [ResponseCall.setCacheWithRevalidationHeaders]) = "text/html".toList
                  then some htmlFilter else none)]) := by
    intro bytes hfile hread
    simp only [handleHttpdResult, VECTOR_ELT_zero, getNames, resultSetup]
    rw [if_pos hpayload, if_pos hfile]
    simp only [hread, kTextHtml]
    split <;> simp
  have unfold_nofile :
      specialFileName E names payloadSEXP (payloadContent E payloadSEXP) = [] →
      handleHttpdResult E (SEXP.vec (payloadSEXP :: rest) names) request htmlFilter pResponse =
        some (pResponse ++ resultSetup E (SEXP.vec (payloadSEXP :: rest) names) ++
          (if resultCode E (SEXP.vec (payloadSEXP :: rest) names) = 200 then
            dynamicContentCalls E (payloadContent E payloadSEXP) request
              (if E.contentType
                  (pResponse ++ resultSetup E (SEXP.vec (payloadSEXP :: rest) names)) =
                    "text/html".toList
                then htmlFilter else Filter.NullOutputFilter)
              (pResponse ++ resultSetup E (SEXP.vec (payloadSEXP :: rest) names))
          else [ResponseCall.setBodyUnencoded (payloadContent E payloadSEXP)])) := by
    intro hfile
    simp only [handleHttpdResult, VECTOR_ELT_zero, getNames, resultSetup]
    rw [if_pos hpayload, if_neg (by simpa using hfile)]
    simp only [setDynamicContentResponseNull, setDynamicContentResponse_eq, status_Ok,
      kTextHtml]
    split
    · split <;> rfl
    · rfl
  refine ⟨?_, ?_, ?_⟩
  · rintro ⟨ns, rfl⟩ hcontent bytes hread
    have hname := specialFileName_named E ns payloadSEXP (payloadContent E payloadSEXP)
    exact unfold_file bytes (by rw [hname]; exact hcontent) (by rw [hname]; exact hread)
  · rintro hnames path more pn rfl hpath bytes hread
    have hname := specialFileName_unnamed E names
      (SEXP.str ("*FILE*".toList :: path :: more) pn)
      (payloadContent E (SEXP.str ("*FILE*".toList :: path :: more) pn)) hnames
    have hname2 : specialFileName E names (SEXP.str ("*FILE*".toList :: path :: more) pn)
        (payloadContent E (SEXP.str ("*FILE*".toList :: path :: more) pn)) = path := by
      rw [hname]
      simp [LENGTH, payloadContent, payloadSecond]
    exact unfold_file bytes (by rw [hname2]; exact hpath) (by rw [hname2]; exact hread)
  · rintro (⟨⟨ns, rfl⟩, hcontent⟩ | ⟨hnames, hnot⟩ | ⟨hnames, more, pn, rfl⟩)
    · apply unfold_nofile
      rw [specialFileName_named]; exact hcontent
    · apply unfold_nofile
      rw [specialFileName_unnamed E names _ _ hnames, if_neg hnot]
    · apply unfold_nofile
      rw [specialFileName_unnamed E names _ _ hnames]
      simp [LENGTH, payloadContent, payloadSecond]

/-- Witness for C4 (amended): the spec's file-branch example, the element named "file" is
`/tmp/x.html`, the content type is the default "text/html". -/
theorem C4_file_reference_detection_witness :
    handleHttpdResult (sampleHost SEXP.null)
      (SEXP.vec [SEXP.str ["/tmp/x.html".toList] none] (some ["file".toList]))
      sampleRequest (Filter.HelpContentsFilter sampleRequest.uri) [] =
    some [ResponseCall.setStatusCode 200, ResponseCall.setContentType "text/html".toList,
      ResponseCall.setCacheWithRevalidationHeaders,
      ResponseCall.setCacheableBody "<a href=\"/x\">".toList
        (some (Filter.HelpContentsFilter sampleRequest.uri))] :=
  (C4_file_reference_detection (sampleHost SEXP.null) (SEXP.str ["/tmp/x.html".toList] none) []
    (some ["file".toList]) sampleRequest (Filter.HelpContentsFilter sampleRequest.uri) []
    (by decide)).1 ⟨[], rfl⟩ (by decide) "<a href=\"/x\">".toList rfl

/-! ## HTML rewrite filter -/

theorem replaceAllAux_skip (search format : Str) (skip : Nat) (input : Str) :
    replaceAllAux search format skip input = replaceAllAux search format 0 (input.drop skip) := by
  induction input generalizing skip with
  | nil => cases skip <;> simp [replaceAllAux]
  | cons c cs ih =>
    cases skip with
    | zero => simp
    | succ k => simp only [replaceAllAux, List.drop_succ_cons]; exact ih k

theorem replace_all_copy_nil (search format : Str) :
    replace_all_copy [] search format = [] := by
  unfold replace_all_copy
  split <;> simp [replaceAllAux]

theorem replace_all_copy_cons_match (search format : Str) (c : Char) (cs : Str)
    (hs : search ≠ []) (h : search <+: c :: cs) :
    replace_all_copy (c :: cs) search format =
      format ++ replace_all_copy ((c :: cs).drop search.length) search format := by
  have hp : search.isPrefixOf (c :: cs) = true := List.isPrefixOf_iff_prefix.mpr h
  obtain ⟨x, xs, rfl⟩ := List.exists_cons_of_ne_nil hs
  simp only [replace_all_copy, reduceCtorEq, if_false, replaceAllAux, hp, if_true,
    List.length_cons, Nat.add_sub_cancel, List.drop_succ_cons]
  rw [replaceAllAux_skip]

theorem replace_all_copy_cons_nomatch (search format : Str) (c : Char) (cs : Str)
    (hs : search ≠ []) (h : ¬ search <+: c :: cs) :
    replace_all_copy (c :: cs) search format = c :: replace_all_copy cs search format := by
  have hp : ¬ search.isPrefixOf (c :: cs) = true := fun hp => h (List.isPrefixOf_iff_prefix.mp hp)
  simp [replace_all_copy, hs, replaceAllAux, hp]

theorem replace_all_copy_append_match (search format b : Str) (hs : search ≠ []) :
    replace_all_copy (search ++ b) search format = format ++ replace_all_copy b search format := by
  obtain ⟨x, xs, rfl⟩ := List.exists_cons_of_ne_nil hs
  have h : (x :: xs) <+: x :: (xs ++ b) := List.prefix_append (x :: xs) b
  have := replace_all_copy_cons_match (x :: xs) format x (xs ++ b) hs h
  rw [List.cons_append, this]
  congr 2
  exact List.drop_left (x :: xs) b

theorem replace_all_copy_of_no_occurrence (search format input : Str) (hs : search ≠ [])
    (h : ¬ search <:+: input) : replace_all_copy input search format = input := by
  induction input with
  | nil => exact replace_all_copy_nil search format
  | cons c cs ih =>
    rw [List.infix_cons_iff, not_or] at h
    rw [replace_all_copy_cons_nomatch search format c cs hs h.1, ih h.2]

theorem replace_all_copy_first_occurrence (search format a b : Str) (hs : search ≠ [])
    (h : ¬ search <:+: a ++ search.dropLast) :
    replace_all_copy (a ++ search ++ b) search format =
      a ++ format ++ replace_all_copy b search format := by
  induction a with
  | nil => simpa using replace_all_copy_append_match search format b hs
  | cons c cs ih =>
    rw [List.cons_append, List.infix_cons_iff, not_or] at h
    have hnp : ¬ search <+: c :: (cs ++ search ++ b) := by
      intro hp
      apply h.1
      have hlong : (c :: (cs ++ search.dropLast)) <+: c :: (cs ++ search ++ b) := by
        rw [List.prefix_cons_inj, List.append_assoc, List.prefix_append_right_inj]
        exact (List.dropLast_prefix search).trans (List.prefix_append search b)
      refine List.prefix_of_prefix_length_le hp hlong ?_
      have : 0 < search.length := List.length_pos.mpr hs
      simp only [List.length_cons, List.length_append, List.length_dropLast]
      omega
    simp only [List.cons_append]
    rw [replace_all_copy_cons_nomatch search format c _ hs hnp, ih h.2]

theorem not_infix_dropLast (search : Str) (hs : search ≠ []) :
    ¬ search <:+: [] ++ search.dropLast := by
  intro h
  have hlen := h.length_le
  have : 0 < search.length := List.length_pos.mpr hs
  simp only [List.nil_append, List.length_dropLast] at hlen
  omega

theorem replacedEvery_cons (search format : Str) (c : Char) (input output : Str)
    (h : ReplacedEvery search format input output) (hnp : ¬ search <+: c :: input) :
    ReplacedEvery search format (c :: input) (c :: output) := by
  cases h with
  | done _ hno =>
    exact ReplacedEvery.done _ (by rw [List.infix_cons_iff, not_or]; exact ⟨hnp, hno⟩)
  | step a b b' hfirst hb =>
    have hfirst' : ¬ search <:+: (c :: a) ++ search.dropLast := by
      rw [List.cons_append, List.infix_cons_iff, not_or]
      refine ⟨fun hp => hnp (hp.trans ?_), hfirst⟩
      rw [List.prefix_cons_inj, List.append_assoc, List.prefix_append_right_inj]
      exact (List.dropLast_prefix search).trans (List.prefix_append search b)
    exact ReplacedEvery.step (c :: a) b b' hfirst' hb

theorem replacedEvery_replace_all_copy_aux (search format : Str) (hs : search ≠ [])
    (n : Nat) : ∀ input : Str, input.length ≤ n →
      ReplacedEvery search format input (replace_all_copy input search format) := by
  induction n with
  | zero =>
    intro input hlen
    have : input = [] := List.length_eq_zero.mp (Nat.le_zero.mp hlen)
    subst this
    rw [replace_all_copy_nil]
    exact ReplacedEvery.done [] (by simpa using hs)
  | succ n ih =>
    intro input hlen
    cases input with
    | nil =>
      rw [replace_all_copy_nil]
      exact ReplacedEvery.done [] (by simpa using hs)
    | cons c cs =>
      have hcs : cs.length ≤ n := by simpa using hlen
      by_cases hp : search <+: c :: cs
      · obtain ⟨b, hb⟩ := hp
        have hpos : 0 < search.length := List.length_pos.mpr hs
        have hblen : b.length ≤ n := by
          have := congrArg List.length hb
          simp only [List.length_append, List.length_cons] at this
          omega
        rw [← hb, replace_all_copy_append_match search format b hs]
        have := ReplacedEvery.step [] b _ (not_infix_dropLast search hs) (ih b hblen)
        simpa using this
      · rw [replace_all_copy_cons_nomatch search format c cs hs hp]
        exact replacedEvery_cons search format c cs _ (ih cs hcs) hp

theorem replacedEvery_replace_all_copy (search format input : Str) (hs : search ≠ []) :
    ReplacedEvery search format input (replace_all_copy input search format) :=
  replacedEvery_replace_all_copy_aux search format hs input.length input (Nat.le_refl _)

theorem replacedEvery_unique (search format input output : Str) (hs : search ≠ [])
    (h : ReplacedEvery search format input output) :
    output = replace_all_copy input search format := by
  induction h with
  | done input hno => exact (replace_all_copy_of_no_occurrence search format input hs hno).symm
  | step a b b' hfirst _ ih =>
    rw [replace_all_copy_first_occurrence search format a b hs hfirst, ih]

theorem replacedEvery_iff (search format input output : Str) (hs : search ≠ []) :
    ReplacedEvery search format input output ↔
      output = replace_all_copy input search format :=
  ⟨replacedEvery_unique search format input output hs,
    fun h => h ▸ replacedEvery_replace_all_copy search format input hs⟩

/-- C7. For every input `html` and every base URL (the value of `uncomplete` for the
request URI), the output of `HelpContentsFilter::do_filter` is: `html` with every
occurrence of `href="/` replaced by `href="<baseUrl>/`, then in that result every
occurrence of `src="/` replaced by `src="<baseUrl>/`, followed by one copy of the
`helpNavigated` script; no other string is the output.  In particular, for base URL
`/proxy` the body `<a href="/x">` becomes `<a href="/proxy/x">` followed by the script. -/
theorem C7_do_filter_rewrites_links_and_appends_script (E : Host) (requestUri html : Str) :
    (∀ output : Str, do_filter E requestUri html = output ↔
      ∃ mid dest : Str,
        ReplacedEvery "href=\"/".toList
          ("href=\"".toList ++ E.uncomplete requestUri "/help".toList ++ "/".toList) html mid ∧
        ReplacedEvery "src=\"/".toList
          ("src=\"".toList ++ E.uncomplete requestUri "/help".toList ++ "/".toList) mid dest ∧
        output = dest ++
          ("<script type=\"text/javascript\">\n" ++
           "if (window.parent.helpNavigated)\n" ++
           "   window.parent.helpNavigated(document, window);" ++
           "</script>").toList) ∧
    (E.uncomplete requestUri "/help".toList = "/proxy".toList →
      do_filter E requestUri "<a href=\"/x\">".toList =
        "<a href=\"/proxy/x\">".toList ++ helpNavigatedJs) := by
  constructor
  · intro output
    constructor
    · intro h
      refine ⟨_, _, replacedEvery_replace_all_copy _ _ html (by decide),
        replacedEvery_replace_all_copy _ _ _ (by decide), ?_⟩
      rw [← h]
      rfl
    · rintro ⟨mid, dest, h1, h2, rfl⟩
      rw [replacedEvery_unique _ _ _ _ (by decide) h1] at h2
      rw [replacedEvery_unique _ _ _ _ (by decide) h2]
      rfl
  · intro hbase
    simp only [do_filter, kHelpLocation, hbase]
    decide

/-- Witness for C7: the sample host resolves every base URL to `/proxy`. -/
theorem C7_do_filter_rewrites_links_and_appends_script_witness :
    do_filter (sampleHost SEXP.null) "/help/doc/index.html".toList "<a href=\"/x\">".toList =
      "<a href=\"/proxy/x\">".toList ++ helpNavigatedJs :=
  (C7_do_filter_rewrites_links_and_appends_script (sampleHost SEXP.null)
    "/help/doc/index.html".toList "<a href=\"/x\">".toList).2 rfl

theorem infix_append_cases (q u v : Str) (h : q <:+: u ++ v) :
    q <:+: u ∨ q <:+: v ∨
      ∃ q1 q2 : Str, q1 ≠ [] ∧ q2 ≠ [] ∧ q = q1 ++ q2 ∧ q1 <:+ u ∧ q2 <+: v := by
  obtain ⟨s, t, hst⟩ := h
  rcases List.append_eq_append_iff.mp hst with ⟨a', hu, _⟩ | ⟨c', hsq, hv⟩
  · exact Or.inl ⟨s, a', hu.symm⟩
  · rcases List.append_eq_append_iff.mp hsq with ⟨a', hu, hq⟩ | ⟨c'', _, hc'⟩
    · by_cases ha : a' = []
      · subst ha
        right; left
        exact ⟨[], t, by simpa [hq] using hv.symm⟩
      · by_cases hc : c' = []
        · subst hc
          left
          exact ⟨s, [], by simp [hu, hq]⟩
        · right; right
          exact ⟨a', c', ha, hc, hq, ⟨s, hu.symm⟩, ⟨t, hv.symm⟩⟩
    · right; left
      exact ⟨c'', t, by rw [hv, hc']⟩

theorem suffix_concat_ne_nil (q1 l : Str) (x : Char) (hne : q1 ≠ []) (h : q1 <:+ l ++ [x]) :
    ∃ q1' : Str, q1 = q1' ++ [x] ∧ q1' <:+ l := by
  rcases List.eq_nil_or_concat q1 with rfl | ⟨L, b, rfl⟩
  · exact absurd rfl hne
  · rw [List.concat_eq_append] at h ⊢
    obtain ⟨t, ht⟩ := h
    rw [← List.append_assoc] at ht
    have := List.append_inj' ht rfl
    simp only [List.cons.injEq, and_true] at this
    exact ⟨L, by rw [this.2], ⟨t, this.1⟩⟩

/-- A split of `X ++ "\"/"` right after a double quote puts the slash next. -/
theorem quote_split_next (X q1' q2' : Str) (b0 : Char) (hX : '"' ∉ X)
    (h : q1' ++ '"' :: b0 :: q2' = X ++ ['"', '/']) : b0 = '/' := by
  induction X generalizing q1' with
  | nil =>
    rcases q1' with _ | ⟨c, _ | ⟨c2, r⟩⟩ <;> simp at h
    exact h.1
  | cons x X' ih =>
    rcases q1' with _ | ⟨c, r⟩
    · simp only [List.nil_append, List.cons_append, List.cons.injEq] at h
      exact absurd h.1 (fun hx => hX (by rw [← hx]; exact List.mem_cons_self _ _))
    · simp only [List.cons_append, List.cons.injEq] at h
      exact ih r (fun hm => hX (List.mem_cons_of_mem _ hm)) h.2

/-- No split of `X ++ "\"/"` has a first part that is free of double quotes and ends in a
slash. -/
theorem no_slash_split (X q1' q2 : Str) (hXs : '/' ∉ X) (hq : '"' ∉ q1')
    (h : q1' ++ '/' :: q2 = X ++ ['"', '/']) : False := by
  induction X generalizing q1' with
  | nil =>
    rcases q1' with _ | ⟨c, r⟩
    · simp at h
    · simp only [List.cons_append, List.nil_append, List.cons.injEq] at h
      exact hq (by rw [h.1]; exact List.mem_cons_self _ _)
  | cons x X' ih =>
    rcases q1' with _ | ⟨c, r⟩
    · simp only [List.nil_append, List.cons_append, List.cons.injEq] at h
      exact hXs (by rw [← h.1]; exact List.mem_cons_self _ _)
    · simp only [List.cons_append, List.cons.injEq] at h
      exact ih r (fun hm => hXs (List.mem_cons_of_mem _ hm))
        (fun hm => hq (List.mem_cons_of_mem _ hm)) h.2

/-- Inserting `B ++ "/"` after a text that ends in a double quote creates no occurrence of
`XQ ++ "\"/"`, when `B` is not empty, does not begin with a slash and holds no double
quote. -/
theorem no_new_occurrence (XQ u b' B' : Str) (b0 : Char)
    (hb0 : b0 ≠ '/') (hBq : '"' ∉ b0 :: B') (hXq : '"' ∉ XQ) (hXs : '/' ∉ XQ)
    (hU : ¬ (XQ ++ ['"', '/']) <:+: u ++ ['"'])
    (hb' : ¬ (XQ ++ ['"', '/']) <:+: b') :
    ¬ (XQ ++ ['"', '/']) <:+: (u ++ ['"']) ++ ((b0 :: B') ++ ['/'] ++ b') := by
  intro h
  rcases infix_append_cases _ _ _ h with h1 | h2 | ⟨q1, q2, hq1, hq2, hQ, hsuf, hpre⟩
  · exact hU h1
  · rcases infix_append_cases _ _ _ h2 with h3 | h4 | ⟨q1, q2, hq1, _, hQ, hsuf, _⟩
    · have hmem : '"' ∈ (b0 :: B') ++ ['/'] := h3.subset (by simp)
      rw [List.mem_append] at hmem
      rcases hmem with hm | hm
      · exact hBq hm
      · simp at hm
    · exact hb' h4
    · obtain ⟨q1', rfl, hsuf'⟩ := suffix_concat_ne_nil q1 (b0 :: B') '/' hq1 hsuf
      have hq : '"' ∉ q1' := fun hm => hBq (hsuf'.subset hm)
      rw [List.append_assoc] at hQ
      exact no_slash_split XQ q1' q2 hXs hq hQ.symm
  · obtain ⟨q1', rfl, _⟩ := suffix_concat_ne_nil q1 u '"' hq1 hsuf
    rcases q2 with _ | ⟨c, q2'⟩
    · exact hq2 rfl
    · have hc : c = b0 := by
        simp only [List.cons_append, List.cons_prefix_cons] at hpre
        exact hpre.1
      subst hc
      rw [List.append_assoc] at hQ
      exact hb0 (quote_split_next XQ q1' q2' c hXq hQ.symm)

/-- Replacing every `XP ++ "\"/"` by `XP ++ "\"" ++ B ++ "/"` leaves no occurrence of
`XQ ++ "\"/"`, provided the input had none or the two patterns are the same. -/
theorem no_occurrence_after_replace (XQ XP B' input output : Str) (b0 : Char)
    (hb0 : b0 ≠ '/') (hBq : '"' ∉ b0 :: B') (hXq : '"' ∉ XQ) (hXs : '/' ∉ XQ)
    (h : ReplacedEvery (XP ++ ['"', '/']) (XP ++ ['"'] ++ (b0 :: B') ++ ['/']) input output)
    (hin : XQ = XP ∨ ¬ (XQ ++ ['"', '/']) <:+: input) :
    ¬ (XQ ++ ['"', '/']) <:+: output := by
  induction h with
  | done input hno =>
    rcases hin with rfl | hin
    · exact hno
    · exact hin
  | step a b b' hfirst _ ih =>
    have hdrop : (XP ++ ['"', '/']).dropLast = XP ++ ['"'] := by
      have : XP ++ ['"', '/'] = (XP ++ ['"']) ++ ['/'] := by simp
      rw [this, List.dropLast_concat]
    rw [hdrop] at hfirst
    have hU : ¬ (XQ ++ ['"', '/']) <:+: (a ++ XP) ++ ['"'] := by
      rcases hin with rfl | hin
      · simpa using hfirst
      · intro hq
        apply hin
        refine hq.trans ⟨[], ['/'] ++ b, ?_⟩
        simp
    have hb' : ¬ (XQ ++ ['"', '/']) <:+: b' := by
      apply ih
      rcases hin with rfl | hin
      · exact Or.inl rfl
      · exact Or.inr (fun hq => hin (hq.trans ⟨a ++ (XP ++ ['"', '/']), [], by simp⟩))
    have := no_new_occurrence XQ (a ++ XP) b' B' b0 hb0 hBq hXq hXs hU hb'
    simpa using this

theorem no_occurrence_append_script (q x : Str) (hx : ¬ q <:+: x)
    (hJ : ¬ q <:+: helpNavigatedJs) (hlt : '<' ∉ q) : ¬ q <:+: x ++ helpNavigatedJs := by
  intro h
  rcases infix_append_cases _ _ _ h with h1 | h2 | ⟨q1, q2, _, hq2, hQ, _, hpre⟩
  · exact hx h1
  · exact hJ h2
  · rcases q2 with _ | ⟨c, q2'⟩
    · exact hq2 rfl
    · have hc : c = '<' := by
        have hj : helpNavigatedJs = '<' :: helpNavigatedJs.tail := by decide
        rw [hj, List.cons_prefix_cons] at hpre
        exact hpre.1
      apply hlt
      rw [hQ, hc]
      simp

theorem replacedEvery_self (search input output : Str)
    (h : ReplacedEvery search search input output) : output = input := by
  induction h with
  | done => rfl
  | step a b b' _ _ ih => rw [ih]

theorem replace_all_copy_self (search input : Str) (hs : search ≠ []) :
    replace_all_copy input search search = input :=
  replacedEvery_self search input _ (replacedEvery_replace_all_copy search search input hs)

set_option maxRecDepth 8000 in
theorem script_has_no_link : ¬ hrefSearch <:+: helpNavigatedJs ∧ ¬ srcSearch <:+: helpNavigatedJs := by
  decide

set_option maxRecDepth 100000 in
/-- C8 (as stated, refuted). With base URL `/proxy` the second invocation of the filter on
the output of the first turns `href="/proxy/x"` into `href="/proxy/proxy/x"`. -/
theorem C8_counterexample_double_prefix :
    do_filter (sampleHost SEXP.null) "/help/doc/index.html".toList
      (do_filter (sampleHost SEXP.null) "/help/doc/index.html".toList "<a href=\"/x\">".toList) =
    "<a href=\"/proxy/proxy/x\">".toList ++ helpNavigatedJs ++ helpNavigatedJs := by
  decide

/-- C8 (amended). For every html input and every base URL that does not begin with a slash
and holds no double quote, invoking the filter a second time on its own output with the
same base URL rewrites nothing: the second output is the first output followed by one more
copy of the script, so no `href="<baseUrl>/` or `src="<baseUrl>/` is prefixed again. -/
theorem C8_second_pass_rewrites_nothing (E : Host) (requestUri html : Str)
    (hslash : (E.uncomplete requestUri "/help".toList).head? ≠ some '/')
    (hquote : '"' ∉ E.uncomplete requestUri "/help".toList) :
    do_filter E requestUri (do_filter E requestUri html) =
      do_filter E requestUri html ++ helpNavigatedJs := by
  have hhref : hrefSearch = "href=".toList ++ ['"', '/'] := by decide
  have hsrc : srcSearch = "src=".toList ++ ['"', '/'] := by decide
  have hne1 : hrefSearch ≠ [] := by decide
  have hne2 : srcSearch ≠ [] := by decide
  simp only [do_filter, kHelpLocation]
  generalize E.uncomplete requestUri "/help".toList = base at hslash hquote
  congr 1
  rcases base with _ | ⟨b0, B'⟩
  · have h1 : hrefFormat [] = hrefSearch := by decide
    have h2 : srcFormat [] = srcSearch := by decide
    simp only [h1, h2, replace_all_copy_self _ _ hne1, replace_all_copy_self _ _ hne2]
  · have hb0 : b0 ≠ '/' := by
      intro hb; apply hslash; simp [hb]
    have hf1 : hrefFormat (b0 :: B') = "href=".toList ++ ['"'] ++ (b0 :: B') ++ ['/'] := by
      simp only [hrefFormat]; rfl
    have hf2 : srcFormat (b0 :: B') = "src=".toList ++ ['"'] ++ (b0 :: B') ++ ['/'] := by
      simp only [srcFormat]; rfl
    -- the first pass leaves no `href="/`
    have r1 := replacedEvery_replace_all_copy hrefSearch (hrefFormat (b0 :: B')) html hne1
    have n1 : ¬ hrefSearch <:+: replace_all_copy html hrefSearch (hrefFormat (b0 :: B')) := by
      rw [hf1] at r1 ⊢
      rw [hhref] at r1 ⊢
      exact no_occurrence_after_replace _ _ B' _ _ b0 hb0 hquote (by decide) (by decide) r1
        (Or.inl rfl)
    -- the second pass creates no `href="/` and leaves no `src="/`
    have r2 := replacedEvery_replace_all_copy srcSearch (srcFormat (b0 :: B'))
      (replace_all_copy html hrefSearch (hrefFormat (b0 :: B'))) hne2
    have n2 : ¬ hrefSearch <:+: replace_all_copy
        (replace_all_copy html hrefSearch (hrefFormat (b0 :: B'))) srcSearch
        (srcFormat (b0 :: B')) := by
      rw [hf2] at r2 ⊢
      rw [hsrc] at r2 ⊢
      rw [hhref] at n1 ⊢
      exact no_occurrence_after_replace _ _ B' _ _ b0 hb0 hquote (by decide) (by decide) r2
        (Or.inr n1)
    have n3 : ¬ srcSearch <:+: replace_all_copy
        (replace_all_copy html hrefSearch (hrefFormat (b0 :: B'))) srcSearch
        (srcFormat (b0 :: B')) := by
      rw [hf2] at r2 ⊢
      rw [hsrc] at r2 ⊢
      exact no_occurrence_after_replace _ _ B' _ _ b0 hb0 hquote (by decide) (by decide) r2
        (Or.inl rfl)
    have m1 := no_occurrence_append_script _ _ n2 script_has_no_link.1 (by decide)
    have m2 := no_occurrence_append_script _ _ n3 script_has_no_link.2 (by decide)
    rw [replace_all_copy_of_no_occurrence _ _ _ hne1 m1, replace_all_copy_of_no_occurrence _ _ _ hne2 m2]

/-- Witness for C8 (amended): the base URL is `..`. -/
theorem C8_second_pass_rewrites_nothing_witness :
    do_filter relativeHost "/help/doc/index.html".toList
      (do_filter relativeHost "/help/doc/index.html".toList "<a href=\"/x\">".toList) =
    do_filter relativeHost "/help/doc/index.html".toList "<a href=\"/x\">".toList ++
      helpNavigatedJs :=
  C8_second_pass_rewrites_nothing relativeHost "/help/doc/index.html".toList
    "<a href=\"/x\">".toList (by decide) (by decide)

/-! ## URL locality matcher -/

theorem find_of_isPrefixOf (hay needle : Str) (h : needle.isPrefixOf hay = true) :
    find hay needle = some 0 := by
  cases hay with
  | nil =>
    have : needle = [] := by
      cases needle with
      | nil => rfl
      | cons c cs => simp [List.isPrefixOf] at h
    simp [find, this]
  | cons c cs => simp [find, h]

/-- C9 (the code at the failing input). With the binding (127.0.0.1, 8787) the URL
`https://example.org/?u=http://localhost:8787/custom/foo` begins with neither
`http://127.0.0.1:8787/` nor `http://localhost:8787/`, yet `isLocalURL` with scope `custom`
succeeds, and the path it stores is the URL without its first 22 characters. -/
theorem C9_isLocalURL_matches_inside_url :
    ¬ localURL sampleBinding sampleBinding.s_localIP <+:
        "https://example.org/?u=http://localhost:8787/custom/foo".toList ∧
    ¬ localURL sampleBinding "localhost".toList <+:
        "https://example.org/?u=http://localhost:8787/custom/foo".toList ∧
    isLocalURL sampleBinding "https://example.org/?u=http://localhost:8787/custom/foo".toList
      "custom".toList = some "=http://localhost:8787/custom/foo".toList := by
  decide

/-- C10 (as stated, refuted). With the binding (127.0.0.1, 8787),
`isLocalURL("http://localhost:8787/custom/foo", "custom")` stores `custom/foo`, not
`foo`. -/
theorem C10_counterexample_remainder_keeps_scope :
    isLocalURL sampleBinding "http://localhost:8787/custom/foo".toList "custom".toList =
      some "custom/foo".toList ∧
    isLocalURL sampleBinding "http://localhost:8787/custom/foo".toList "custom".toList ≠
      some "foo".toList := by
  decide

/-- C10 (amended). With the binding (127.0.0.1, 8787), for every string `rest`,
`isLocalURL("http://localhost:8787/custom/" ++ rest, "custom")` succeeds and stores the
text after the address:port prefix, which is `"custom/" ++ rest`. -/
theorem C10_isLocalURL_localhost_custom (rest : Str) :
    isLocalURL sampleBinding ("http://localhost:8787/custom/".toList ++ rest) "custom".toList =
      some ("custom/".toList ++ rest) := by
  have hsecond : find ("http://localhost:8787/custom/".toList ++ rest)
      (localURL sampleBinding "localhost".toList ++ "custom".toList) = some 0 := by
    apply find_of_isPrefixOf
    rw [List.isPrefixOf_iff_prefix]
    exact ⟨'/' :: rest, rfl⟩
  simp only [isLocalURL, hsecond]
  cases find ("http://localhost:8787/custom/".toList ++ rest)
      (localURL sampleBinding sampleBinding.s_localIP ++ "custom".toList) <;> rfl

/-! ## URL locality matcher and browse-URL hook -/

theorem find_eq_none_iff (hay needle : Str) : find hay needle = none ↔ ¬ needle <:+: hay := by
  induction hay with
  | nil =>
    by_cases h : needle = [] <;> simp [find, h]
  | cons c cs ih =>
    by_cases hp : needle.isPrefixOf (c :: cs) = true
    · have hpre : needle <+: c :: cs := List.isPrefixOf_iff_prefix.mp hp
      simp only [find, hp, if_true, reduceCtorEq, false_iff, not_not]
      exact hpre.isInfix
    · have hpre : ¬ needle <+: c :: cs := fun h => hp (List.isPrefixOf_iff_prefix.mpr h)
      simp only [find, hp, Bool.false_eq_true, if_false, Option.map_eq_none', ih,
        List.infix_cons_iff, hpre, false_or]

/-- For the bound address the stored path is the text after the address:port prefix,
whatever follows the scope. -/
theorem isLocalURL_bound_address (b : DaemonBinding) (scope rest : Str) :
    isLocalURL b (localURL b b.s_localIP ++ scope ++ rest) scope = some (scope ++ rest) := by
  have hfind : find (localURL b b.s_localIP ++ scope ++ rest)
      (localURL b b.s_localIP ++ scope) = some 0 := by
    apply find_of_isPrefixOf
    rw [List.isPrefixOf_iff_prefix]
    exact List.prefix_append _ _
  simp only [isLocalURL, hfind, substr]
  rw [List.append_assoc, List.drop_left]

/-- For `localhost` the stored path is the text after the address:port prefix when the
bound-address prefix followed by the scope does not occur in the URL. -/
theorem isLocalURL_localhost (b : DaemonBinding) (scope rest : Str)
    (hno : ¬ (localURL b b.s_localIP ++ scope) <:+:
      localURL b "localhost".toList ++ scope ++ rest) :
    isLocalURL b (localURL b "localhost".toList ++ scope ++ rest) scope =
      some (scope ++ rest) := by
  have hfirst := (find_eq_none_iff _ _).mpr hno
  have hfind : find (localURL b "localhost".toList ++ scope ++ rest)
      (localURL b "localhost".toList ++ scope) = some 0 := by
    apply find_of_isPrefixOf
    rw [List.isPrefixOf_iff_prefix]
    exact List.prefix_append _ _
  simp only [isLocalURL, hfirst, hfind, substr]
  rw [List.append_assoc, List.drop_left]

/-- C11 (the code at the failing input). With the binding (10.0.0.1, 8787) and the URL
`http://localhost:8787/` followed by `rest = x?u=http://10.0.0.1:8787/`, `isLocalURL` with
the empty scope succeeds through the bound-address test, which finds its prefix inside
`rest`, and stores `/x?u=http://10.0.0.1:8787/`, one character more than `rest`; for the
claim's own example, binding (127.0.0.1, 8787) and URL `http://127.0.0.1:8787/x`, it
stores `x`. -/
theorem C11_isLocalURL_localhost_remainder_shifted :
    isLocalURL ⟨"10.0.0.1".toList, "8787".toList⟩
      ("http://".toList ++ "localhost".toList ++ ":".toList ++ "8787".toList ++ "/".toList ++
        "x?u=http://10.0.0.1:8787/".toList) [] =
      some ('/' :: "x?u=http://10.0.0.1:8787/".toList) ∧
    isLocalURL sampleBinding "http://127.0.0.1:8787/x".toList [] = some "x".toList := by
  decide

/-- C12 (the code at the failing input). With the binding (127.0.0.1, 8787) the URL
`http://127.0.0.1:8787/custom/foo` is not classified as custom-content navigation: the
custom test looks for `http://127.0.0.1:8787//custom` (the prefix ends in a slash and
`kCustomLocation` begins with one) and fails, and `handleLocalHttpUrl` enqueues a show-help
event with path `custom/foo` instead of a browse-URL event. -/
theorem C12_custom_url_classified_as_help :
    isLocalURL sampleBinding "http://127.0.0.1:8787/custom/foo".toList kCustomLocation = none ∧
    handleLocalHttpUrl sampleBinding "http://127.0.0.1:8787/custom/foo".toList [] =
      (true, [ClientEvent.showHelp "custom/foo".toList]) ∧
    handleLocalHttpUrl sampleBinding "http://localhost:8787/custom/foo".toList [] =
      (true, [ClientEvent.showHelp "custom/foo".toList]) := by
  decide

/-- C13 (as stated, refuted). With no port recorded, the URL `http://://custom` passes both
the custom-scope check and the empty-scope check of `isLocalURL`, yet `handleLocalHttpUrl`
returns false and enqueues nothing. -/
theorem C13_counterexample_no_port :
    isLocalURL ⟨[], []⟩ "http://://custom".toList kCustomLocation = some "/custom".toList ∧
    isLocalURL ⟨[], []⟩ "http://://custom".toList [] = some "/custom".toList ∧
    handleLocalHttpUrl ⟨[], []⟩ "http://://custom".toList [] = (false, []) := by
  decide

/-- C13 (amended). When a port has been recorded (the stored port is not empty), for every
URL for which both the custom-scope check (`isLocalURL` with scope `kCustomLocation`) and
the empty-scope check succeed, `handleLocalHttpUrl` returns true and enqueues exactly one
client event, the browse-URL event for "/" followed by the custom-scope remainder, and no
show-help event. -/
theorem C13_custom_check_wins (b : DaemonBinding) (url customPath helpPath : Str)
    (queue : List ClientEvent) (hport : b.s_localPort ≠ [])
    (hcustom : isLocalURL b url kCustomLocation = some customPath)
    (_hhelp : isLocalURL b url [] = some helpPath) :
    handleLocalHttpUrl b url queue =
      (true, queue ++ [ClientEvent.browseUrl ('/' :: customPath)]) := by
  simp only [handleLocalHttpUrl, hport, if_false, hcustom]
  rfl

/-- Witness for C13 (amended): the URL `http://127.0.0.1:8787//custom/foo`. -/
theorem C13_custom_check_wins_witness :
    handleLocalHttpUrl sampleBinding "http://127.0.0.1:8787//custom/foo".toList [] =
      (true, [] ++ [ClientEvent.browseUrl ('/' :: "/custom/foo".toList)]) :=
  C13_custom_check_wins sampleBinding "http://127.0.0.1:8787//custom/foo".toList
    "/custom/foo".toList "/custom/foo".toList [] (by decide) (by decide) (by decide)

/-- C14 (as stated, refuted). With the address and the port still empty,
`isLocalURL("http://:/x", "")` succeeds and stores `x`. -/
theorem C14_counterexample_empty_binding :
    isLocalURL ⟨[], []⟩ "http://:/x".toList [] = some "x".toList := by
  decide

/-- C14 (amended). While no daemon binding has been recorded (the stored address and port
are empty), `isLocalURL` is not dormant by itself: on a URL that begins with `http://:/`
followed by the scope it succeeds and stores the text after `http://:/`, and on a URL that
begins with `http://localhost:/` followed by the scope it succeeds; it returns none for
every URL in which neither of the two texts occurs.  `handleLocalHttpUrl`, its caller,
returns false and enqueues nothing for every URL in that state.  (Nothing is said about a
URL that holds one of the two texts elsewhere than at its start.) -/
theorem C14_isLocalURL_empty_binding (url scope rest : Str) (queue : List ClientEvent) :
    isLocalURL ⟨[], []⟩ ("http://:/".toList ++ scope ++ rest) scope = some (scope ++ rest) ∧
    (isLocalURL ⟨[], []⟩ ("http://localhost:/".toList ++ scope ++ rest) scope).isSome = true ∧
    (¬ ("http://:/".toList ++ scope) <:+: url →
      ¬ ("http://localhost:/".toList ++ scope) <:+: url →
      isLocalURL ⟨[], []⟩ url scope = none) ∧
    handleLocalHttpUrl ⟨[], []⟩ url queue = (false, queue) := by
  have h1 : localURL ⟨[], []⟩ [] = "http://:/".toList := by decide
  have h2 : localURL ⟨[], []⟩ "localhost".toList = "http://localhost:/".toList := by decide
  refine ⟨?_, ?_, ?_, ?_⟩
  · have := isLocalURL_bound_address ⟨[], []⟩ scope rest
    rw [h1] at this
    exact this
  · have hfind : find ("http://localhost:/".toList ++ scope ++ rest)
        ("http://localhost:/".toList ++ scope) = some 0 := by
      apply find_of_isPrefixOf
      rw [List.isPrefixOf_iff_prefix]
      exact List.prefix_append _ _
    simp only [isLocalURL, h1, h2, hfind]
    cases find ("http://localhost:/".toList ++ scope ++ rest) ("http://:/".toList ++ scope) <;>
      rfl
  · intro hno1 hno2
    simp only [isLocalURL, h1, h2, (find_eq_none_iff _ _).mpr hno1,
      (find_eq_none_iff _ _).mpr hno2]
  · simp [handleLocalHttpUrl]

/-- Witness for C14 (amended): a URL of another site. -/
theorem C14_isLocalURL_empty_binding_witness :
    isLocalURL ⟨[], []⟩ "http://example.org/".toList [] = none :=
  (C14_isLocalURL_empty_binding "http://example.org/".toList [] [] []).2.2.1
    (by decide) (by decide)

/-- C18. While no port has been recorded, `handleLocalHttpUrl` returns false and leaves
the event queue unchanged for every URL, whatever the stored address is; and for every
binding and URL it appends at most one event to the queue and returns true exactly when it
appended one. -/
theorem C18_dormant_and_at_most_one_event (b : DaemonBinding) (url : Str)
    (queue : List ClientEvent) :
    (b.s_localPort = [] → handleLocalHttpUrl b url queue = (false, queue)) ∧
    ∃ events : List ClientEvent,
      (handleLocalHttpUrl b url queue).2 = queue ++ events ∧
      events.length ≤ 1 ∧
      ((handleLocalHttpUrl b url queue).1 = true ↔ events.length = 1) := by
  constructor
  · intro hport
    simp [handleLocalHttpUrl, hport]
  · unfold handleLocalHttpUrl
    split
    · exact ⟨[], by simp, by simp, by simp⟩
    · split
      · exact ⟨[_], rfl, by simp, by simp⟩
      · split
        · exact ⟨[_], rfl, by simp, by simp⟩
        · exact ⟨[], by simp, by simp, by simp⟩

/-- Witness for C18: no port recorded, an address is stored. -/
theorem C18_dormant_and_at_most_one_event_witness :
    handleLocalHttpUrl ⟨"127.0.0.1".toList, []⟩ "http://127.0.0.1:/x".toList [] = (false, []) :=
  (C18_dormant_and_at_most_one_event ⟨"127.0.0.1".toList, []⟩ "http://127.0.0.1:/x".toList
    []).1 rfl

/-! ## Handler resolver -/

theorem customHandlerName_cons (c : Char) (cs : Str) :
    customHandlerName (c :: cs) =
      match customHandlerName cs with
      | some handler => some handler
      | none =>
        if "/custom/".toList.isPrefixOf (c :: cs) then
          some (((c :: cs).drop "/custom/".toList.length).takeWhile isHandlerNameChar)
        else none := by
  rw [customHandlerName]

theorem customHandlerName_eq_none_iff (uri : Str) :
    customHandlerName uri = none ↔ ¬ "/custom/".toList <:+: uri := by
  induction uri with
  | nil => simp [customHandlerName]
  | cons c cs ih =>
    rw [customHandlerName_cons, List.infix_cons_iff, not_or]
    cases hcs : customHandlerName cs with
    | some handler =>
      have : "/custom/".toList <:+: cs := by
        by_contra hno
        rw [ih.mpr hno] at hcs
        exact absurd hcs (by simp)
      simp only [reduceCtorEq, false_iff, not_and, not_not]
      exact fun _ => this
    | none =>
      have hno := ih.mp hcs
      by_cases hp : "/custom/".toList.isPrefixOf (c :: cs) = true
      · have hpre := List.isPrefixOf_iff_prefix.mp hp
        simp only [hp, if_true, reduceCtorEq, false_iff, not_and]
        exact fun h => absurd hpre h
      · have hpre : ¬ "/custom/".toList <+: c :: cs :=
          fun h => hp (List.isPrefixOf_iff_prefix.mpr h)
        simp only [hp, Bool.false_eq_true, if_false, true_iff]
        exact ⟨hpre, hno⟩

theorem customHandlerName_eq_some (uri handler : Str)
    (h : customHandlerName uri = some handler) :
    ∃ before after : Str,
      uri = before ++ "/custom/".toList ++ handler ++ after ∧
      (∀ c ∈ handler, isHandlerNameChar c = true) ∧
      (∀ c ∈ after.head?, isHandlerNameChar c = false) ∧
      ¬ "/custom/".toList <:+: ("custom/".toList ++ handler ++ after) := by
  induction uri with
  | nil => simp [customHandlerName] at h
  | cons c cs ih =>
    rw [customHandlerName_cons] at h
    cases hcs : customHandlerName cs with
    | some later =>
      rw [hcs] at h
      simp only [Option.some.injEq] at h
      subst h
      obtain ⟨before, after, huri, hname, hafter, hlast⟩ := ih hcs
      exact ⟨c :: before, after, by rw [huri]; simp, hname, hafter, hlast⟩
    | none =>
      rw [hcs] at h
      simp only at h
      split at h
      · rename_i hp
        obtain ⟨t, ht⟩ := List.isPrefixOf_iff_prefix.mp hp
        simp only [Option.some.injEq] at h
        rw [← ht, List.drop_left] at h
        have hsplit : handler ++ t.dropWhile isHandlerNameChar = t := by
          rw [← h]; exact List.takeWhile_append_dropWhile _ _
        refine ⟨[], t.dropWhile isHandlerNameChar, ?_, ?_, ?_, ?_⟩
        · rw [List.nil_append, List.append_assoc, hsplit, ht]
        · intro x hx
          rw [← h] at hx
          exact List.mem_takeWhile_imp hx
        · intro x hx
          have hh := List.head?_dropWhile_not isHandlerNameChar t
          rw [Option.mem_def.mp hx] at hh
          exact hh
        · have hno := (customHandlerName_eq_none_iff cs).mp hcs
          have hcs' : cs = "custom/".toList ++ t := by
            have : c :: cs = '/' :: ("custom/".toList ++ t) := ht.symm
            exact (List.cons.inj this).2
          rw [List.append_assoc, hsplit, ← hcs']
          exact hno
      · simp at h

theorem takeWhile_handler_name (handler after : Str)
    (hname : ∀ c ∈ handler, isHandlerNameChar c = true)
    (hafter : ∀ c ∈ after.head?, isHandlerNameChar c = false) :
    (handler ++ after).takeWhile isHandlerNameChar = handler := by
  induction handler with
  | nil =>
    cases after with
    | nil => rfl
    | cons a as =>
      have : isHandlerNameChar a = false := hafter a (by simp)
      simp [List.takeWhile, this]
  | cons x xs ih =>
    have hx : isHandlerNameChar x = true := hname x (List.mem_cons_self _ _)
    rw [List.cons_append, List.takeWhile_cons, hx, if_pos rfl,
      ih (fun c hc => hname c (List.mem_cons_of_mem _ hc))]

/-- The handler name extracted by the pattern: the match exists exactly when the URI
contains `/custom/`, and the name is the longest run of name characters after the last
`/custom/`. -/
theorem customHandlerName_eq_some_iff (uri handler : Str) :
    customHandlerName uri = some handler ↔
      ∃ before after : Str,
        uri = before ++ "/custom/".toList ++ handler ++ after ∧
        (∀ c ∈ handler, isHandlerNameChar c = true) ∧
        (∀ c ∈ after.head?, isHandlerNameChar c = false) ∧
        ¬ "/custom/".toList <:+: ("custom/".toList ++ handler ++ after) := by
  constructor
  · exact customHandlerName_eq_some uri handler
  · rintro ⟨before, after, rfl, hname, hafter, hlast⟩
    induction before with
    | nil =>
      have hcons : [] ++ "/custom/".toList ++ handler ++ after =
          '/' :: ("custom/".toList ++ handler ++ after) := rfl
      rw [hcons, customHandlerName_cons, (customHandlerName_eq_none_iff _).mpr hlast]
      have hp : "/custom/".toList.isPrefixOf ('/' :: ("custom/".toList ++ handler ++ after)) =
          true := by
        rw [List.isPrefixOf_iff_prefix]
        exact ⟨handler ++ after, by simp⟩
      have hdrop : ('/' :: ("custom/".toList ++ handler ++ after)).drop "/custom/".toList.length =
          handler ++ after := by
        have : '/' :: ("custom/".toList ++ handler ++ after) =
            "/custom/".toList ++ (handler ++ after) := by simp
        rw [this, List.drop_left]
      simp only [hp, if_true, hdrop, takeWhile_handler_name handler after hname hafter]
    | cons c before ih =>
      have hcons : (c :: before) ++ "/custom/".toList ++ handler ++ after =
          c :: (before ++ "/custom/".toList ++ handler ++ after) := rfl
      rw [hcons, customHandlerName_cons, ih]

/-- When the registry is available and `Rf_install` accepts the extracted name,
`lookupCustomHandler` returns the closure the registry binds to that name; it evaluates
`findFunction(".rs.handlerLookupError")` when the URI does not contain `/custom/`, when
the registry is not an environment, when the name is unbound and when it is bound to a
value that is not a closure. -/
theorem lookupCustomHandler_closure_or_fallback (E : Host) (cache : Option SEXP) (uri : Str) :
    (∀ env handler symbol cl,
      (match cache with
        | some env => Except.ok env
        | none => E.httpdHandlersEnv) = Except.ok env →
      customHandlerName uri = some handler →
      TYPEOF env = SEXPTYPE.ENVSXP →
      Rf_install E handler = Except.ok symbol →
      E.findVarInFrame3 env symbol = some cl →
      TYPEOF cl = SEXPTYPE.CLOSXP →
      (lookupCustomHandler E cache uri).1 = Except.ok cl) ∧
    (¬ "/custom/".toList <:+: uri →
      (lookupCustomHandler E cache uri).1 = E.findFunction ".rs.handlerLookupError".toList) ∧
    (∀ env handler,
      (match cache with
        | some env => Except.ok env
        | none => E.httpdHandlersEnv) = Except.ok env →
      customHandlerName uri = some handler →
      (TYPEOF env ≠ SEXPTYPE.ENVSXP ∨
        ∃ symbol, Rf_install E handler = Except.ok symbol ∧
          (E.findVarInFrame3 env symbol = none ∨
            ∃ cl, E.findVarInFrame3 env symbol = some cl ∧ TYPEOF cl ≠ SEXPTYPE.CLOSXP)) →
      (lookupCustomHandler E cache uri).1 = E.findFunction ".rs.handlerLookupError".toList) := by
  refine ⟨?_, ?_, ?_⟩
  · intro env handler symbol cl hreg hname henv hsym hfind hclos
    simp only [lookupCustomHandler, hname, hreg, henv, if_true, hsym, hfind, hclos]
  · intro hno
    simp only [lookupCustomHandler, (customHandlerName_eq_none_iff uri).mpr hno]
  · rintro env handler hreg hname (henv | ⟨symbol, hsym, hnone | ⟨cl, hfind, hclos⟩⟩)
    · simp only [lookupCustomHandler, hname, hreg, henv, if_false]
    · simp only [lookupCustomHandler, hname, hreg, hsym, hnone]
      split <;> rfl
    · simp only [lookupCustomHandler, hname, hreg, hsym, hfind, hclos, if_false]
      split <;> rfl

/-- C17 (the code at the failing input). For the URI `/custom/` the pattern matches with
the empty name, and with the registry an environment `lookupCustomHandler` calls
`Rf_install("")`, which raises an R error: no callable is returned, neither a closure nor
`.rs.handlerLookupError`.  When the registry symbol is unbound, `Rf_eval` raises before
the environment test and the URI `/custom/foo` gets no callable either.  On the same host
`/custom/foo/bar` resolves to the closure bound to `foo`, and `/custom/nosuch`,
`/custom/version` and `/help/x` resolve to `.rs.handlerLookupError`. -/
theorem C17_lookupCustomHandler_fails_on_empty_name :
    customHandlerName "/custom/".toList = some [] ∧
    lookupCustomHandler (sampleHost SEXP.null) none "/custom/".toList =
      (Except.error ⟨"attempt to use zero-length variable name".toList⟩,
        some (SEXP.env 1)) ∧
    lookupCustomHandler
        { sampleHost SEXP.null with
          httpdHandlersEnv := Except.error ⟨"object '.httpd.handlers.env' not found".toList⟩ }
        none "/custom/foo".toList =
      (Except.error ⟨"object '.httpd.handlers.env' not found".toList⟩, none) ∧
    lookupCustomHandler (sampleHost SEXP.null) none "/custom/foo/bar".toList =
      (Except.ok (SEXP.closure 7), some (SEXP.env 1)) ∧
    lookupCustomHandler (sampleHost SEXP.null) none "/custom/nosuch".toList =
      (Except.ok (SEXP.closure 0), some (SEXP.env 1)) ∧
    lookupCustomHandler (sampleHost SEXP.null) none "/custom/version".toList =
      (Except.ok (SEXP.closure 0), some (SEXP.env 1)) ∧
    lookupCustomHandler (sampleHost SEXP.null) none "/help/x".toList =
      (Except.ok (SEXP.closure 0), none) :=
  ⟨rfl, rfl, rfl, rfl, rfl, rfl, rfl⟩

/-! ## Request translator -/

/-- The handler is called with the path it was given, unchanged, as first argument; the
copy decoded with `urlDecode(path, false)` is not among the arguments. -/
theorem callHandler_arguments (E : Host) (path : Str) (request : Request)
    (handlerSource : HandlerSource) :
    callHandler E path request handlerSource =
      E.evalTry (handlerSource path)
        [SEXP.str [path] none, parseQuery request.queryParams, parseRequestBody request] :=
  rfl

/-- C15 (the code at the failing input). On a host that decodes as the specification
describes (the default decode translates `+`), the help request for `/help/library/a+b`
calls the handler with the path `/library/a b`: the very string of the static-asset
comparison, not `/library/a+b`, the decoding without translation.  The handler of this
host returns its first argument, which the response shows as the error message. -/
theorem C15_handler_receives_default_decoded_path :
    requestPath echoHost kHelpLocation { sampleRequest with uri := "/help/library/a+b".toList } =
      "/library/a b".toList ∧
    echoHost.urlDecode "/library/a+b".toList false = "/library/a+b".toList ∧
    handleHttpdRequest echoHost kHelpLocation (fun _ => SEXP.closure 0)
      { sampleRequest with uri := "/help/library/a+b".toList }
      (Filter.HelpContentsFilter "/help/library/a+b".toList) [] =
    some [ResponseCall.setError 500 "/library/a b".toList] := by
  decide

/-- C16. For every field list `parseQuery` yields null exactly when the list is empty and
otherwise the mapping of the fields in their original order (values with the names as
`names` attribute).  For every request `parseRequestBody` yields null when the body is
empty; otherwise the `parseQuery` mapping of the form fields when these are not empty; and
otherwise a raw buffer that holds exactly the body's bytes, so has the body's length, and
carries the request's content type as its `content-type` attribute (no attribute when the
request has no content type).  An empty body and an empty query give null for both. -/
theorem C16_parseQuery_parseRequestBody (fields : List (Str × Str)) (request : Request) :
    (parseQuery fields = SEXP.null ↔ fields = []) ∧
    (fields ≠ [] →
      parseQuery fields = SEXP.str (fields.map Prod.snd) (some (fields.map Prod.fst))) ∧
    (request.body = [] → parseRequestBody request = SEXP.null) ∧
    (request.body ≠ [] → request.formFields ≠ [] →
      parseRequestBody request = parseQuery request.formFields) ∧
    (request.body ≠ [] → request.formFields = [] →
      parseRequestBody request =
        SEXP.raw request.body
          (if request.contentType = [] then none else some request.contentType) ∧
      LENGTH (parseRequestBody request) = request.body.length) ∧
    (request.body = [] → request.queryParams = [] →
      parseRequestBody request = SEXP.null ∧ parseQuery request.queryParams = SEXP.null) := by
  refine ⟨?_, ?_, ?_, ?_, ?_, ?_⟩
  · by_cases h : fields = [] <;> simp [parseQuery, createFromFields, h]
  · intro h
    simp [parseQuery, createFromFields, h]
  · intro h
    simp [parseRequestBody, h]
  · intro hb hf
    simp [parseRequestBody, hb, hf]
  · intro hb hf
    have hraw : parseRequestBody request =
        SEXP.raw request.body
          (if request.contentType = [] then none else some request.contentType) := by
      simp only [parseRequestBody, hb, hf, if_false, ne_eq, not_true_eq_false]
      by_cases hc : request.contentType = [] <;> simp [hc]
    exact ⟨hraw, by rw [hraw]; rfl⟩
  · intro hb hq
    simp [parseRequestBody, parseQuery, hb, hq]

/-- Witness for C16: a JSON body without form fields. -/
theorem C16_parseQuery_parseRequestBody_witness :
    parseRequestBody
      { sampleRequest with body := "{}".toList, contentType := "application/json".toList } =
    SEXP.raw "{}".toList (some "application/json".toList) :=
  ((C16_parseQuery_parseRequestBody []
    { sampleRequest with body := "{}".toList, contentType := "application/json".toList }).2.2.2.2.1
    (by decide) rfl).1

end SessionHelp
